import Mathlib

/-
  Verification development for the deno-steam-trader offer-lifecycle engine.

  The definitions below are a shallow embedding of the repository's core:
  the DataPoller reconciliation tick (data_poller.ts, latest revision: the
  one using manager.evt.post, deleteTimeProps/deleteOldProps and
  pruneOfferEntry/tryDeleteOldProps), the TradeOffer verbs
  (trade_offer.ts), the ConfirmationService latch and clock offset
  (confirmation_service.ts), and the small helpers (utils.ts).

  Conventions used throughout:
  * JS objects keyed by offer id (Record<string, number>) are embedded as
    association lists `List (String × α)`; `mapGet` is property read
    (first binding wins), `mapSet` overwrites in place or appends,
    `mapDel` is the delete operator.  All ETradeOfferState codes are
    nonzero in the upstream enum, so a store read is falsy exactly when
    the key is absent; `Option` captures this.
  * Unix times are embedded as `Int`.  Offers reaching the poller come
    from TradeOffer.from, where `updated = new Date(time_updated * 1000)`,
    hence `offer.updated.getTime() / 1000` is exactly the integer
    `time_updated`; the embedding stores that integer as `updatedSec`.
    Millisecond clock readings (`Date.now()`) are a separate `nowMs`
    parameter.
  * Numeric manager knobs that may be `undefined` are embedded as `Int`
    (or `Nat`) with `0` for unset: every guard in the source tests them
    with JS truthiness, which identifies `undefined` and `0`.
-/

namespace ST

/-- Property read on a JS object embedded as an association list:
the first binding for the key, if any. -/
def mapGet {α : Type} : List (String × α) → String → Option α
  | [], _ => none
  | p :: rest, k => if p.1 = k then some p.2 else mapGet rest k

/-- Property write on a JS object: overwrite the existing binding in
place, or append a new one. -/
def mapSet {α : Type} : List (String × α) → String → α → List (String × α)
  | [], k, v => [(k, v)]
  | p :: rest, k, v => if p.1 = k then (k, v) :: rest else p :: mapSet rest k v

/-- The JS delete operator: remove every binding for the key. -/
def mapDel {α : Type} : List (String × α) → String → List (String × α)
  | [], _ => []
  | p :: rest, k => if p.1 = k then mapDel rest k else p :: mapDel rest k

/-- The keys of an embedded JS object, in entry order. -/
def mapKeys {α : Type} (m : List (String × α)) : List String := m.map (fun p => p.1)

/-- Modelled from the spec: the ETradeOfferState enum (its source file,
enums/ETradeOfferState.ts, is not part of this source snapshot; the spec
section 3 lists the members).  All upstream numeric codes are >= 1, so a
stored state is always truthy in JS. -/
inductive ETradeOfferState where
  | Invalid
  | Active
  | Accepted
  | Countered
  | Expired
  | Canceled
  | Declined
  | InvalidItems
  | CreatedNeedsConfirmation
  | CanceledBySecondFactor
  | InEscrow
  | EscrowRollback
  deriving DecidableEq, Repr

/-- Modelled from the spec: the EConfirmationMethod enum (file not in
this snapshot; spec section 3: none, email, mobile). -/
inductive EConfirmationMethod where
  | None
  | Email
  | MobileApp
  deriving DecidableEq, Repr

/-- NON_TERMINAL_OFFER_STATES from trade_offer.ts. -/
def NON_TERMINAL_OFFER_STATES : List ETradeOfferState :=
  [ETradeOfferState.Accepted, ETradeOfferState.CreatedNeedsConfirmation,
    ETradeOfferState.InEscrow]

/-- isNonTerminalState from trade_offer.ts: whichever shape the argument
has (offer object, raw DTO, or bare state code in pruneOfferEntry), the
function tests membership of the state in NON_TERMINAL_OFFER_STATES. -/
def isNonTerminalState (s : ETradeOfferState) : Bool :=
  NON_TERMINAL_OFFER_STATES.contains s

/-- The item fields the core reads: EconItem keeps appid/contextid/assetid
(the identity triple compared by EconItem.equals) and the optional
display name consulted by hasNoName. -/
structure EconItem where
  appid : Nat
  contextid : String
  assetid : String
  name : Option String
  deriving DecidableEq, Repr

/-- hasNoName from utils.ts: JS !item.name, true when the name is absent
or the empty string. -/
def hasNoName (item : EconItem) : Bool :=
  match item.name with
  | none => true
  | some s => s = ""

/-- EconItem.equals from econ_item.ts: loose equality of the identity
triple appid/contextid/assetid. -/
def econEquals (a b : EconItem) : Bool :=
  a.appid = b.appid && a.contextid = b.contextid && a.assetid = b.assetid

/-- fastConcat from utils.ts: copy of the first array with the second
appended element by element. -/
def fastConcat {α : Type} (a b : List α) : List α := a ++ b

/-- The TradeOffer fields read by the reconciliation walk
(trade_offer.ts).  `updatedSec`/`createdSec` are the integer unix
seconds underlying the Date fields (see header note). -/
structure TradeOffer where
  id : Option String
  state : ETradeOfferState
  itemsToGive : List EconItem
  itemsToReceive : List EconItem
  fromRealTimeTrade : Bool
  confirmationMethod : EConfirmationMethod
  updatedSec : Int
  createdSec : Int
  deriving DecidableEq, Repr

/-- TradeOffer.isGlitched from trade_offer.ts.  `getDescriptions` is the
manager flag the method reads through its back reference. -/
def isGlitched (getDescriptions : Bool) (o : TradeOffer) : Bool :=
  match o.id with
  | none => false
  | some _ =>
    if o.itemsToGive.length + o.itemsToReceive.length = 0 then true
    else if getDescriptions &&
        (o.itemsToGive.any hasNoName || o.itemsToReceive.any hasNoName) then true
    else false

/-- PollData from data_poller.ts: five id-keyed maps plus the
offersSince cutoff. -/
structure PollData where
  offersSince : Int
  sent : List (String × ETradeOfferState)
  received : List (String × ETradeOfferState)
  timestamps : List (String × Int)
  cancelTimes : List (String × Int)
  pendingCancelTimes : List (String × Int)
  deriving DecidableEq, Repr

/-- DataPoller.deleteTimeProps. -/
def deleteTimeProps (pd : PollData) (offerid : String) : PollData :=
  { pd with
    cancelTimes := mapDel pd.cancelTimes offerid
    pendingCancelTimes := mapDel pd.pendingCancelTimes offerid }

/-- DataPoller.deleteOldProps: deleteTimeProps plus the sent, received
and timestamps bindings. -/
def deleteOldProps (pd : PollData) (offerid : String) : PollData :=
  let pd1 := deleteTimeProps pd offerid
  { pd1 with
    sent := mapDel pd1.sent offerid
    received := mapDel pd1.received offerid
    timestamps := mapDel pd1.timestamps offerid }

/-- The keep condition of DataPoller.pruneOfferEntry:
isNonTerminalState(state) || (timestamps[id] && offersSince - 1800 <
timestamps[id]).  A missing or zero timestamp is falsy. -/
def pruneKeep (offersSince : Int) (st : ETradeOfferState) (ts : Option Int) : Bool :=
  isNonTerminalState st ||
    (match ts with
     | some v => decide (v ≠ 0) && decide (offersSince - 1800 < v)
     | none => false)

/-- DataPoller.pruneOfferEntry. -/
def pruneOfferEntry (pd : PollData) (entry : String × ETradeOfferState) : PollData :=
  if pruneKeep pd.offersSince entry.2 (mapGet pd.timestamps entry.1) then pd
  else deleteOldProps pd entry.1

/-- DataPoller.tryDeleteOldProps: prune a snapshot of the received
entries, then a snapshot of the (possibly already pruned) sent
entries. -/
def tryDeleteOldProps (pd : PollData) : PollData :=
  let pd1 := pd.received.foldl pruneOfferEntry pd
  pd1.sent.foldl pruneOfferEntry pd1

/-- The TradeManager knobs the tick reads.  Zero encodes an unset knob:
every source guard tests these with JS truthiness. -/
structure MgrCfg where
  getDescriptions : Bool
  cancelTime : Int
  pendingCancelTime : Int
  cancelOfferCount : Nat
  cancelOfferCountMinAge : Int
  deriving DecidableEq, Repr

/-- The events posted by a tick through manager.evt.  Debug posts are
collapsed to one constructor; the offer-carrying events keep the offer
id (and the previous state where the source passes it). -/
inductive PollEvent where
  | debugNote
  | unknownOfferSent (offerid : String)
  | realTimeTradeConfirmationRequired (offerid : String)
  | realTimeTradeCompleted (offerid : String)
  | sentOfferChanged (offerid : String) (prev : ETradeOfferState)
  | newOffer (offerid : String)
  | receivedOfferChanged (offerid : String) (prev : ETradeOfferState)
  deriving DecidableEq, Repr

/-- Why the tick asked for an offer to be canceled. -/
inductive CancelReason where
  | cancelTimeRule
  | pendingCancelTimeRule
  | cancelOfferCountRule
  deriving DecidableEq, Repr

/-- Accumulator of one tick: the store, the posted events, and the
cancel requests the tick fires.  A cancel is an async offer.cancel()
whose success callback runs deleteTimeProps and posts an event; only
cancelTimes/pendingCancelTimes are ever touched by those callbacks, so
the embedding records the request and leaves the store to the walk. -/
structure WalkState where
  pd : PollData
  events : List PollEvent
  intents : List (String × CancelReason)
  hasGlitchedOffer : Bool
  deriving DecidableEq, Repr

/-- The real-time-trade events of the unknown-sent branch. -/
def sentUnknownRtEvents (o : TradeOffer) (offerid : String) : List PollEvent :=
  if o.fromRealTimeTrade then
    if o.state = ETradeOfferState.CreatedNeedsConfirmation ∨
        (o.state = ETradeOfferState.Active ∧
          o.confirmationMethod ≠ EConfirmationMethod.None) then
      [PollEvent.realTimeTradeConfirmationRequired offerid]
    else if o.state = ETradeOfferState.Accepted then
      [PollEvent.realTimeTradeCompleted offerid]
    else []
  else []

/-- The real-time-trade event of the changed-sent branch. -/
def sentChangedRtEvents (o : TradeOffer) (offerid : String) : List PollEvent :=
  if o.fromRealTimeTrade ∧ o.state = ETradeOfferState.Accepted then
    [PollEvent.realTimeTradeCompleted offerid]
  else []

/-- The unknown/changed/glitched diff of one sent offer against
pollData.sent (first block of the sent-offers forEach in
DataPoller.doPoll). -/
def sentDiff (cfg : MgrCfg) (pendingSendOffersCount : Nat) (ws : WalkState)
    (o : TradeOffer) (offerid : String) : WalkState :=
  match mapGet ws.pd.sent offerid with
  | none =>
    if pendingSendOffersCount = 0 then
      { ws with
        pd := { ws.pd with
          sent := mapSet ws.pd.sent offerid o.state
          timestamps := mapSet ws.pd.timestamps offerid o.updatedSec }
        events := ws.events ++ sentUnknownRtEvents o offerid ++
          [PollEvent.unknownOfferSent offerid] }
    else ws
  | some prev =>
    if o.state ≠ prev then
      if !isGlitched cfg.getDescriptions o then
        { ws with
          pd := { ws.pd with
            sent := mapSet ws.pd.sent offerid o.state
            timestamps := mapSet ws.pd.timestamps offerid o.updatedSec }
          events := ws.events ++ sentChangedRtEvents o offerid ++
            [PollEvent.sentOfferChanged offerid prev] }
      else
        { ws with
          hasGlitchedOffer := true
          events := ws.events ++ [PollEvent.debugNote] }
    else ws

/-- The effective cancelTime of an offer: the per-offer binding when
present (pollData.cancelTimes[id] === undefined ? manager.cancelTime :
binding), else the manager knob. -/
def effCancelTime (cfg : MgrCfg) (ws : WalkState) (offerid : String) : Int :=
  match mapGet ws.pd.cancelTimes offerid with
  | none => cfg.cancelTime
  | some v => v

/-- The effective pendingCancelTime of an offer, mirroring
effCancelTime on pendingCancelTimes. -/
def effPendingCancelTime (cfg : MgrCfg) (ws : WalkState) (offerid : String) : Int :=
  match mapGet ws.pd.pendingCancelTimes offerid with
  | none => cfg.pendingCancelTime
  | some v => v

/-- The cancelTime block of the sent-offers forEach: an Active offer
older than its effective cancelTime gets an async cancel request. -/
def sentCancelActive (cfg : MgrCfg) (nowMs : Int) (ws : WalkState)
    (o : TradeOffer) (offerid : String) : WalkState :=
  if o.state = ETradeOfferState.Active then
    if effCancelTime cfg ws offerid ≠ 0 ∧
        nowMs - o.updatedSec * 1000 ≥ effCancelTime cfg ws offerid then
      { ws with intents := ws.intents ++ [(offerid, CancelReason.cancelTimeRule)] }
    else ws
  else ws

/-- The pendingCancelTime block of the sent-offers forEach: an offer
stuck in CreatedNeedsConfirmation past its effective pendingCancelTime
gets an async cancel request. -/
def sentCancelPending (cfg : MgrCfg) (nowMs : Int) (ws : WalkState)
    (o : TradeOffer) (offerid : String) : WalkState :=
  if o.state = ETradeOfferState.CreatedNeedsConfirmation then
    if effPendingCancelTime cfg ws offerid ≠ 0 ∧
        nowMs - o.createdSec * 1000 ≥ effPendingCancelTime cfg ws offerid then
      { ws with intents := ws.intents ++ [(offerid, CancelReason.pendingCancelTimeRule)] }
    else ws
  else ws

/-- One iteration of the sent-offers forEach in DataPoller.doPoll:
the diff against pollData.sent, then the cancelTime and
pendingCancelTime checks.  JS !offer.id also rejects an empty id
string. -/
def processSentOffer (cfg : MgrCfg) (pendingSendOffersCount : Nat) (nowMs : Int)
    (ws : WalkState) (o : TradeOffer) : WalkState :=
  match o.id with
  | none => { ws with events := ws.events ++ [PollEvent.debugNote] }
  | some offerid =>
    if offerid = "" then { ws with events := ws.events ++ [PollEvent.debugNote] }
    else
      sentCancelPending cfg nowMs
        (sentCancelActive cfg nowMs
          (sentDiff cfg pendingSendOffersCount ws o offerid) o offerid)
        o offerid

/-- The comparator of the cancelOfferCount sort:
timestamps[a[0]] - timestamps[b[0]].  When either timestamp is missing
the subtraction is NaN, which the sort treats as equal. -/
def sortLe (ts : List (String × Int)) (a b : String × ETradeOfferState) : Bool :=
  match mapGet ts a.1, mapGet ts b.1 with
  | some x, some y => decide (x ≤ y)
  | _, _ => true

/-- Insert keeping earlier-equal elements first (stable). -/
def insertSorted {α : Type} (le : α → α → Bool) (a : α) : List α → List α
  | [] => [a]
  | b :: l => if le a b then a :: b :: l else b :: insertSorted le a l

/-- Stable sort by a boolean comparator, modelling the ES stable
Array.prototype.sort. -/
def sortBy {α : Type} (le : α → α → Bool) : List α → List α
  | [] => []
  | a :: l => insertSorted le a (sortBy le l)

/-- The min-age skip of the cancelOfferCount loop:
cancelOfferCountMinAge && Date.now() - timestamps[id] <
cancelOfferCountMinAge.  A missing timestamp makes the comparison NaN,
hence false: the entry is not skipped. -/
def minAgeSkip (cfg : MgrCfg) (nowMs : Int) (ts : List (String × Int))
    (offerid : String) : Bool :=
  decide (cfg.cancelOfferCountMinAge ≠ 0) &&
    (match mapGet ts offerid with
     | some t => decide (nowMs - t < cfg.cancelOfferCountMinAge)
     | none => false)

/-- The indexed for-loop of the cancelOfferCount block: walk the first
`budget` entries of the sorted array, skip falsy ids and entries under
the min-age floor, request a cancel for the rest. -/
def quotaLoop (cfg : MgrCfg) (nowMs : Int) (ts : List (String × Int)) :
    Nat → List (String × ETradeOfferState) → List (String × CancelReason)
  | 0, _ => []
  | _ + 1, [] => []
  | n + 1, e :: rest =>
    if e.1 ≠ "" then
      if minAgeSkip cfg nowMs ts e.1 then quotaLoop cfg nowMs ts n rest
      else (e.1, CancelReason.cancelOfferCountRule) :: quotaLoop cfg nowMs ts n rest
    else quotaLoop cfg nowMs ts n rest

/-- The returned-Active entries of the cancelOfferCount concatenation
(offer.id! is undefined for an unset id, embedded as ""). -/
def sentActiveOf (sentOffers : List TradeOffer) : List (String × ETradeOfferState) :=
  (sentOffers.filter (fun o => o.state = ETradeOfferState.Active)).map
    (fun o => (o.id.getD "", o.state))

/-- The store-Active entries of the cancelOfferCount concatenation
(Object.entries(pollData.sent) filtered to Active). -/
def polledSentActiveOf (pd : PollData) : List (String × ETradeOfferState) :=
  pd.sent.filter (fun e => e.2 = ETradeOfferState.Active)

/-- The cancelOfferCount block of DataPoller.doPoll: concatenate the
returned Active sent offers with the Active entries of pollData.sent,
and when the total reaches the cap, sort by stored timestamp and walk
the first length - cap entries, requesting cancels. -/
def quotaBlock (cfg : MgrCfg) (nowMs : Int) (pd : PollData)
    (sentOffers : List TradeOffer) : List (String × CancelReason) :=
  if cfg.cancelOfferCount ≠ 0 then
    if (fastConcat (sentActiveOf sentOffers) (polledSentActiveOf pd)).length ≥
        cfg.cancelOfferCount then
      quotaLoop cfg nowMs pd.timestamps
        ((fastConcat (sentActiveOf sentOffers) (polledSentActiveOf pd)).length -
          cfg.cancelOfferCount)
        (sortBy (sortLe pd.timestamps)
          (fastConcat (sentActiveOf sentOffers) (polledSentActiveOf pd)))
    else []
  else []

/-- The real-time-trade events of the received walk, against the prior
record. -/
def receivedRtEvents (prior : Option ETradeOfferState) (o : TradeOffer)
    (offerid : String) : List PollEvent :=
  if o.fromRealTimeTrade then
    if prior = none ∧
        (o.state = ETradeOfferState.CreatedNeedsConfirmation ∨
          (o.state = ETradeOfferState.Active ∧
            o.confirmationMethod ≠ EConfirmationMethod.None)) then
      [PollEvent.realTimeTradeConfirmationRequired offerid]
    else if o.state = ETradeOfferState.Accepted ∧
        (prior = none ∨ prior ≠ some o.state) then
      [PollEvent.realTimeTradeCompleted offerid]
    else []
  else []

/-- The newOffer/receivedOfferChanged diff of the received walk. -/
def receivedChangeEvents (prior : Option ETradeOfferState) (o : TradeOffer)
    (offerid : String) : List PollEvent :=
  match prior with
  | none =>
    if o.state = ETradeOfferState.Active then [PollEvent.newOffer offerid] else []
  | some prev =>
    if o.state ≠ prev then [PollEvent.receivedOfferChanged offerid prev] else []

/-- One iteration of the received-offers forEach in DataPoller.doPoll:
skip invalid ids, skip (and flag) glitched offers, post the real-time
and newOffer/receivedOfferChanged events, then record state and
timestamp unconditionally. -/
def processReceivedOffer (cfg : MgrCfg) (ws : WalkState) (o : TradeOffer) : WalkState :=
  match o.id with
  | none => { ws with events := ws.events ++ [PollEvent.debugNote] }
  | some offerid =>
    if offerid = "" then { ws with events := ws.events ++ [PollEvent.debugNote] }
    else if isGlitched cfg.getDescriptions o then
      { ws with hasGlitchedOffer := true }
    else
      { ws with
        pd := { ws.pd with
          received := mapSet ws.pd.received offerid o.state
          timestamps := mapSet ws.pd.timestamps offerid o.updatedSec }
        events := ws.events ++
          receivedRtEvents (mapGet ws.pd.received offerid) o offerid ++
          receivedChangeEvents (mapGet ws.pd.received offerid) o offerid }

/-- The result view DataPoller.getOffers builds around the remote
response. -/
structure ApiResp where
  sentOffers : List TradeOffer
  receivedOffers : List TradeOffer
  oldestNonTerminal : Option Int
  requestedAt : Int
  deriving DecidableEq, Repr

/-- JS truthiness of an optional number. -/
def optTruthy : Option Int → Bool
  | none => false
  | some v => decide (v ≠ 0)

/-- The offersSince advance at the end of DataPoller.doPoll: skipped
when a glitched offer was seen; otherwise the oldest non-terminal
update time when truthy and strictly below requestedAt, else
requestedAt. -/
def updateOffersSince (pd : PollData) (resp : ApiResp) (hasGlitchedOffer : Bool) : PollData :=
  if hasGlitchedOffer then pd
  else if optTruthy resp.oldestNonTerminal ∧
      resp.oldestNonTerminal.getD 0 < resp.requestedAt then
    { pd with offersSince := resp.oldestNonTerminal.getD 0 }
  else { pd with offersSince := resp.requestedAt }

/-- The accumulator a tick starts from. -/
def tickStart (pd : PollData) : WalkState :=
  { pd := pd, events := [], intents := [], hasGlitchedOffer := false }

/-- The sent-offers walk of a tick. -/
def tickSentStage (cfg : MgrCfg) (pendingSendOffersCount : Nat) (nowMs : Int)
    (pd : PollData) (resp : ApiResp) : WalkState :=
  resp.sentOffers.foldl (processSentOffer cfg pendingSendOffersCount nowMs) (tickStart pd)

/-- The cancelOfferCount block, appended after the sent walk. -/
def tickQuotaStage (cfg : MgrCfg) (pendingSendOffersCount : Nat) (nowMs : Int)
    (pd : PollData) (resp : ApiResp) : WalkState :=
  { tickSentStage cfg pendingSendOffersCount nowMs pd resp with
    intents := (tickSentStage cfg pendingSendOffersCount nowMs pd resp).intents ++
      quotaBlock cfg nowMs (tickSentStage cfg pendingSendOffersCount nowMs pd resp).pd
        resp.sentOffers }

/-- The received-offers walk of a tick. -/
def tickReceivedStage (cfg : MgrCfg) (pendingSendOffersCount : Nat) (nowMs : Int)
    (pd : PollData) (resp : ApiResp) : WalkState :=
  resp.receivedOffers.foldl (processReceivedOffer cfg)
    (tickQuotaStage cfg pendingSendOffersCount nowMs pd resp)

/-- The successful body of DataPoller.doPoll after getOffers returns:
sent walk, cancelOfferCount block, received walk, offersSince advance,
prune. -/
def doPollCore (cfg : MgrCfg) (pendingSendOffersCount : Nat) (nowMs : Int)
    (pd : PollData) (resp : ApiResp) : WalkState :=
  { tickReceivedStage cfg pendingSendOffersCount nowMs pd resp with
    pd := tryDeleteOldProps
      (updateOffersSince (tickReceivedStage cfg pendingSendOffersCount nowMs pd resp).pd
        resp
        (tickReceivedStage cfg pendingSendOffersCount nowMs pd resp).hasGlitchedOffer) }

/-- The raw GetTradeOffers DTO fields read by getOffers and
TradeOffer.from. -/
structure RawOffer where
  tradeofferid : String
  trade_offer_state : ETradeOfferState
  time_updated : Int
  time_created : Int
  items_to_give : List EconItem
  items_to_receive : List EconItem
  from_real_time_trade : Bool
  confirmation_method : EConfirmationMethod
  deriving DecidableEq, Repr

/-- TradeOffer.from / TradeOffer._update restricted to the fields the
walk reads. -/
def offerFrom (raw : RawOffer) : TradeOffer :=
  { id := some raw.tradeofferid
    state := raw.trade_offer_state
    itemsToGive := raw.items_to_give
    itemsToReceive := raw.items_to_receive
    fromRealTimeTrade := raw.from_real_time_trade
    confirmationMethod := raw.confirmation_method
    updatedSec := raw.time_updated
    createdSec := raw.time_created }

/-- One step of the oldestNonTerminalTimestamp fold in getOffers;
`none` is the initial Infinity. -/
def foldOldest (acc : Option Int) (raw : RawOffer) : Option Int :=
  let lt :=
    match acc with
    | none => true
    | some cur => decide (raw.time_updated < cur)
  if lt && isNonTerminalState raw.trade_offer_state then some raw.time_updated else acc

/-- DataPoller.getOffers: requestedAt = Math.floor(Date.now() / 1000) -
1800, taken before the request; oldestNonTerminal folded over the sent
then the received DTOs. -/
def getOffersCompute (nowMs : Int) (sentRaw receivedRaw : List RawOffer) : ApiResp :=
  let requestedAt := Int.fdiv nowMs 1000 - 1800
  let acc1 := sentRaw.foldl foldOldest none
  let acc2 := receivedRaw.foldl foldOldest acc1
  { sentOffers := sentRaw.map offerFrom
    receivedOffers := receivedRaw.map offerFrom
    oldestNonTerminal := acc2
    requestedAt := requestedAt }

/-- A whole successful tick from a raw remote payload. -/
def doPollTick (cfg : MgrCfg) (pendingSendOffersCount : Nat) (nowMs : Int)
    (pd : PollData) (sentRaw receivedRaw : List RawOffer) : WalkState :=
  doPollCore cfg pendingSendOffersCount nowMs pd
    (getOffersCompute nowMs sentRaw receivedRaw)

/-- The fields of an unsent-or-just-sent TradeOffer that send and the
item mutators read.  `partnerSet` abstracts the non-null partner
SteamID; `cancelTimeOv`/`pendingCancelTimeOv` are the per-offer
override fields (undefined embedded as none). -/
structure OfferDraft where
  id : Option String
  state : ETradeOfferState
  confirmationMethod : EConfirmationMethod
  itemsToGive : List EconItem
  itemsToReceive : List EconItem
  partnerSet : Bool
  cancelTimeOv : Option Int
  pendingCancelTimeOv : Option Int
  deriving DecidableEq, Repr

/-- The response-body fields TradeOffer.send reads after the POST. -/
structure SendBody where
  tradeofferid : Option String
  strError : Option String
  needs_email_confirmation : Bool
  needs_mobile_confirmation : Bool
  deriving DecidableEq, Repr

/-- The HTTP view of the send response; body none embeds a falsy parsed
body (throwIfHasError raises on it). -/
structure SendResponse where
  status : Nat
  body : Option SendBody
  deriving DecidableEq, Repr

/-- The failure modes of TradeOffer.send. -/
inductive SendErr where
  | alreadySent
  | noPartner
  | emptyOffer
  | notLoggedIn
  | httpError (status : Nat)
  | steamError (msg : String)
  | malformedJson
  | unknownResponse
  deriving DecidableEq, Repr

/-- What a successful TradeOffer.send leaves behind: the returned
state, the mutated offer and the mutated poll-data store. -/
structure SendOutcome where
  returned : ETradeOfferState
  offer : OfferDraft
  pd : PollData
  deriving DecidableEq, Repr

/-- The store writes of the tradeofferid branch of TradeOffer.send:
sent[id] = Active, then the truthy per-offer cancelTime and
pendingCancelTime overrides.  No timestamps binding is written. -/
def recordSendSuccess (offer : OfferDraft) (pd : PollData) (tid : String) : PollData :=
  { pd with
    sent := mapSet pd.sent tid ETradeOfferState.Active
    cancelTimes :=
      match offer.cancelTimeOv with
      | some v => if v ≠ 0 then mapSet pd.cancelTimes tid v else pd.cancelTimes
      | none => pd.cancelTimes
    pendingCancelTimes :=
      match offer.pendingCancelTimeOv with
      | some v => if v ≠ 0 then mapSet pd.pendingCancelTimes tid v else pd.pendingCancelTimes
      | none => pd.pendingCancelTimes }

/-- TradeOffer.send from trade_offer.ts, from the response onward (the
POST itself is external; manager.pendingSendOffersCount is incremented
before it and decremented after).  On a body carrying tradeofferid the
offer becomes Active and the store is written through
recordSendSuccess; the confirmation flags then overwrite the offer
state.  The store write happens before the flags are inspected. -/
def sendOffer (offer : OfferDraft) (pd : PollData) (resp : SendResponse) :
    Except SendErr SendOutcome :=
  if offer.id.isSome then Except.error SendErr.alreadySent
  else if !offer.partnerSet then Except.error SendErr.noPartner
  else if offer.itemsToGive.length + offer.itemsToReceive.length = 0 then
    Except.error SendErr.emptyOffer
  else if resp.status ≠ 200 then
    if resp.status = 401 then Except.error SendErr.notLoggedIn
    else Except.error (SendErr.httpError resp.status)
  else
    match resp.body with
    | none => Except.error SendErr.malformedJson
    | some body =>
      match body.strError with
      | some msg => Except.error (SendErr.steamError msg)
      | none =>
        let withId :=
          match body.tradeofferid with
          | some tid =>
            ({ offer with id := some tid, state := ETradeOfferState.Active },
              recordSendSuccess offer pd tid)
          | none => (offer, pd)
        let offer2 :=
          if body.needs_email_confirmation then
            { withId.1 with
              state := ETradeOfferState.CreatedNeedsConfirmation
              confirmationMethod := EConfirmationMethod.Email }
          else withId.1
        let offer3 :=
          if body.needs_mobile_confirmation then
            { offer2 with
              state := ETradeOfferState.CreatedNeedsConfirmation
              confirmationMethod := EConfirmationMethod.MobileApp }
          else offer2
        if offer3.state = ETradeOfferState.CreatedNeedsConfirmation then
          Except.ok
            { returned := ETradeOfferState.CreatedNeedsConfirmation
              offer := offer3, pd := withId.2 }
        else if body.tradeofferid.isSome then
          Except.ok { returned := ETradeOfferState.Active, offer := offer3, pd := withId.2 }
        else Except.error SendErr.unknownResponse

/-- TradeOffer.removeTheirItem: splice out the first element of
itemsToReceive equal (by the identity triple) to the argument. -/
def removeTheirItemOnce (items : List EconItem) (item : EconItem) : List EconItem :=
  match items with
  | [] => []
  | x :: rest =>
    if econEquals x item then rest else x :: removeTheirItemOnce rest item

/-- TradeOffer.removeTheirItems from trade_offer.ts: remove each passed
item, then the extra hard-coded removeTheirItem call the source makes
with appid 313, contextid "2", assetid "1213".  The guard (offer not
yet sent) is a hypothesis of the theorems. -/
def removeTheirItems (itemsToReceive : List EconItem) (items : List EconItem) :
    List EconItem :=
  let afterLoop := items.foldl removeTheirItemOnce itemsToReceive
  removeTheirItemOnce afterLoop
    { appid := 313, contextid := "2", assetid := "1213", name := none }

/-- The localOffset reset at the top of ConfirmationService.request:
an offset beyond 500 restarts at 0. -/
def resetLocalOffset (o : Nat) : Nat :=
  if o > 500 then 0 else o

/-- One key-derivation step (getConfirmations / doConfirmationOperation):
time = getLocalUnixTime() + localOffset++, returning the derivation
time and the post-incremented offset. -/
def deriveStep (nowSec localOffset : Nat) : Nat × Nat :=
  (nowSec + localOffset, localOffset + 1)

/-- Modelled from the spec: the byte string hashed by the external
generateConfirmationKey totp primitive (deps; spec section 4.E): the
big-endian 8-byte timestamp followed by the UTF-8 tag.  Bytes are
embedded as Nat. -/
def confKeyInput (time : Nat) (tagBytes : List Nat) : List Nat :=
  [time / 2 ^ 56 % 256, time / 2 ^ 48 % 256, time / 2 ^ 40 % 256,
    time / 2 ^ 32 % 256, time / 2 ^ 24 % 256, time / 2 ^ 16 % 256,
    time / 2 ^ 8 % 256, time % 256] ++ tagBytes

/-- The big-endian byte block of confKeyInput, alone. -/
def be8 (time : Nat) : List Nat :=
  [time / 2 ^ 56 % 256, time / 2 ^ 48 % 256, time / 2 ^ 40 % 256,
    time / 2 ^ 32 % 256, time / 2 ^ 24 % 256, time / 2 ^ 16 % 256,
    time / 2 ^ 8 % 256, time % 256]

/-- The per-caller control points of ConfirmationService.getConfirmations,
at await granularity: entry is the synchronous prefix (the latch check at
line 107 plus the latch creation at line 110), fetching covers the body
holding the latch, done is after the finally (resolve and clear). -/
inductive ConfPhase where
  | entry
  | waiting
  | fetching
  | done
  deriving DecidableEq, Repr

/-- The shared state of two concurrent getConfirmations calls: each
caller's phase, the latch (retrieveConfirmationsDeffer, owned by the
caller that created it), and how many times the conf endpoint was
hit. -/
structure ConfState where
  phase0 : ConfPhase
  phase1 : ConfPhase
  latch : Option (Fin 2)
  hits : Nat
  deriving DecidableEq, Repr

/-- Read a caller's phase. -/
def confPhase (s : ConfState) (i : Fin 2) : ConfPhase :=
  if i = 0 then s.phase0 else s.phase1

/-- Write a caller's phase. -/
def setConfPhase (s : ConfState) (i : Fin 2) (p : ConfPhase) : ConfState :=
  if i = 0 then { s with phase0 := p } else { s with phase1 := p }

/-- One scheduled synchronous segment of caller i.  entry: if the latch
is set the caller awaits it, else it installs its own latch and issues
the fetch; waiting: once the awaited owner finished, the caller
unconditionally installs a fresh latch and issues its own fetch;
fetching: the finally block resolves and clears the latch.  Scheduling
a blocked or finished caller is a no-op. -/
def confStep (s : ConfState) (i : Fin 2) : ConfState :=
  match confPhase s i with
  | ConfPhase.entry =>
    match s.latch with
    | none =>
      { setConfPhase s i ConfPhase.fetching with latch := some i, hits := s.hits + 1 }
    | some _ => setConfPhase s i ConfPhase.waiting
  | ConfPhase.waiting =>
    if confPhase s (1 - i) = ConfPhase.done then
      { setConfPhase s i ConfPhase.fetching with latch := some i, hits := s.hits + 1 }
    else s
  | ConfPhase.fetching => { setConfPhase s i ConfPhase.done with latch := none }
  | ConfPhase.done => s

/-- Two callers entering concurrently, nothing fetched yet. -/
def confInit : ConfState :=
  { phase0 := ConfPhase.entry, phase1 := ConfPhase.entry, latch := none, hits := 0 }

/-- Run a schedule of caller activations. -/
def confRun (sched : List (Fin 2)) : ConfState :=
  sched.foldl confStep confInit

/-- How many fetches a caller in this phase has already issued. -/
def confHitsOf : ConfPhase → Nat
  | ConfPhase.entry => 0
  | ConfPhase.waiting => 0
  | ConfPhase.fetching => 1
  | ConfPhase.done => 1

/-- The latch/hit-count invariant of the two-caller fetch model: the
latch names exactly the caller currently inside the fetch body, and the
endpoint was hit once per caller that reached the fetch. -/
def confInv (s : ConfState) : Prop :=
  (s.latch = some 0 ↔ s.phase0 = ConfPhase.fetching) ∧
  (s.latch = some 1 ↔ s.phase1 = ConfPhase.fetching) ∧
  s.hits = confHitsOf s.phase0 + confHitsOf s.phase1

/-- Does the tick event change an offer-state record
(sentOfferChanged / receivedOfferChanged)? -/
def isChangeEvent : PollEvent → Bool
  | PollEvent.sentOfferChanged _ _ => true
  | PollEvent.receivedOfferChanged _ _ => true
  | _ => false

/-- The stored timestamp of an entry, defaulting to 0; only used where
every entry is known to carry a timestamp. -/
def tsVal (ts : List (String × Int)) (e : String × ETradeOfferState) : Int :=
  (mapGet ts e.1).getD 0

/-- An empty poll-data store. -/
def pdEmptyStore : PollData :=
  { offersSince := 0, sent := [], received := [], timestamps := []
    cancelTimes := [], pendingCancelTimes := [] }

/-- A manager with every cancel policy off. -/
def cfgPlainZ : MgrCfg :=
  { getDescriptions := false, cancelTime := 0, pendingCancelTime := 0
    cancelOfferCount := 0, cancelOfferCountMinAge := 0 }

/-- A manager with cancelOfferCount = 1 and no min age. -/
def cfgQuota1 : MgrCfg :=
  { getDescriptions := false, cancelTime := 0, pendingCancelTime := 0
    cancelOfferCount := 1, cancelOfferCountMinAge := 0 }

/-- A store already holding offer A as Active, timestamp 100. -/
def pdStoreA : PollData :=
  { offersSince := 0, sent := [("A", ETradeOfferState.Active)], received := []
    timestamps := [("A", 100)], cancelTimes := [], pendingCancelTimes := [] }

/-- Remote payload entry: offer A, Active, updated at 100, one item. -/
def rawActiveA : RawOffer :=
  { tradeofferid := "A", trade_offer_state := ETradeOfferState.Active
    time_updated := 100, time_created := 100
    items_to_give := [{ appid := 440, contextid := "2", assetid := "1", name := some "x" }]
    items_to_receive := [], from_real_time_trade := false
    confirmation_method := EConfirmationMethod.None }

/-- Remote payload entry: offer C with both item sides empty (glitched
once an id is present). -/
def rawGlitchC : RawOffer :=
  { tradeofferid := "C", trade_offer_state := ETradeOfferState.Active
    time_updated := 1000000000, time_created := 1000000000
    items_to_give := [], items_to_receive := []
    from_real_time_trade := false
    confirmation_method := EConfirmationMethod.None }

/-- Remote payload entry: offer D, in escrow (non-terminal), updated at
5000, one item. -/
def rawEscrowD : RawOffer :=
  { tradeofferid := "D", trade_offer_state := ETradeOfferState.InEscrow
    time_updated := 5000, time_created := 5000
    items_to_give := [{ appid := 440, contextid := "2", assetid := "9", name := some "y" }]
    items_to_receive := [], from_real_time_trade := false
    confirmation_method := EConfirmationMethod.None }

/-- A store whose offersSince already reached 10000. -/
def pdSince10000 : PollData :=
  { pdEmptyStore with offersSince := 10000 }

/-- A store holding a terminal record for A whose timestamp sits exactly
at offersSince - 1800. -/
def pdBoundaryA : PollData :=
  { offersSince := 2000, sent := [("A", ETradeOfferState.Declined)], received := []
    timestamps := [("A", 200)], cancelTimes := [], pendingCancelTimes := [] }

/-- An unsent one-item draft offer. -/
def draftOneItem : OfferDraft :=
  { id := none, state := ETradeOfferState.Invalid
    confirmationMethod := EConfirmationMethod.None
    itemsToGive := [{ appid := 440, contextid := "2", assetid := "1", name := none }]
    itemsToReceive := [], partnerSet := true
    cancelTimeOv := none, pendingCancelTimeOv := none }

/-- A successful send response carrying tradeofferid X and no
confirmation requirement. -/
def respOkX : SendResponse :=
  { status := 200
    body := some
      { tradeofferid := some "X", strError := none
        needs_email_confirmation := false, needs_mobile_confirmation := false } }

/-- The item the source hard-codes in removeTheirItems. -/
def itemHat313 : EconItem :=
  { appid := 313, contextid := "2", assetid := "1213", name := some "rare hat" }

/-- Remote payload entry: offer A accepted (a state change against
pdStoreA), updated at 200. -/
def rawAcceptedA : RawOffer :=
  { tradeofferid := "A", trade_offer_state := ETradeOfferState.Accepted
    time_updated := 200, time_created := 100
    items_to_give := [{ appid := 440, contextid := "2", assetid := "1", name := some "x" }]
    items_to_receive := [], from_real_time_trade := false
    confirmation_method := EConfirmationMethod.None }

theorem mapGet_set_self {α : Type} (m : List (String × α)) (k : String) (v : α) :
    mapGet (mapSet m k v) k = some v := by
  induction m with
  | nil => simp [mapSet, mapGet]
  | cons p rest ih =>
    by_cases h : p.1 = k
    · simp [mapSet, h, mapGet]
    · simp [mapSet, h, mapGet, ih]

theorem mapGet_set_ne {α : Type} (m : List (String × α)) (k k' : String) (v : α)
    (h : k' ≠ k) : mapGet (mapSet m k v) k' = mapGet m k' := by
  induction m with
  | nil => simp [mapSet, mapGet, Ne.symm h]
  | cons p rest ih =>
    by_cases hp : p.1 = k
    · have hne : p.1 ≠ k' := by rw [hp]; exact Ne.symm h
      simp [mapSet, hp, mapGet, Ne.symm h, hne]
    · simp only [mapSet, hp, if_false, mapGet]
      by_cases hp' : p.1 = k'
      · simp [hp']
      · simp [hp', ih]

theorem mapGet_del_self {α : Type} (m : List (String × α)) (k : String) :
    mapGet (mapDel m k) k = none := by
  induction m with
  | nil => simp [mapDel, mapGet]
  | cons p rest ih =>
    by_cases h : p.1 = k
    · simp [mapDel, h, ih]
    · simp [mapDel, h, mapGet, ih]

theorem mapGet_del_ne {α : Type} (m : List (String × α)) (k k' : String)
    (h : k' ≠ k) : mapGet (mapDel m k) k' = mapGet m k' := by
  induction m with
  | nil => rfl
  | cons p rest ih =>
    by_cases hp : p.1 = k
    · have hne : p.1 ≠ k' := by rw [hp]; exact Ne.symm h
      simp [mapDel, hp, ih, mapGet, Ne.symm h]
    · simp only [mapDel, hp, if_false, mapGet]
      by_cases hp' : p.1 = k'
      · simp [hp']
      · simp [hp', ih]

theorem mapDel_eq_of_not_mem {α : Type} (m : List (String × α)) (k : String)
    (h : ∀ e ∈ m, e.1 ≠ k) : mapDel m k = m := by
  induction m with
  | nil => rfl
  | cons p rest ih =>
    have hp : p.1 ≠ k := h p (List.mem_cons_self p rest)
    simp [mapDel, hp, ih fun e he => h e (List.mem_cons_of_mem p he)]

theorem mem_of_mem_mapDel {α : Type} (m : List (String × α)) (k : String)
    (e : String × α) (h : e ∈ mapDel m k) : e ∈ m := by
  induction m with
  | nil => exact absurd h (List.not_mem_nil e)
  | cons p rest ih =>
    by_cases hp : p.1 = k
    · simp only [mapDel, hp, if_true] at h
      exact List.mem_cons_of_mem p (ih h)
    · simp only [mapDel, hp, if_false, List.mem_cons] at h
      rcases h with h | h
      · exact h ▸ List.mem_cons_self p rest
      · exact List.mem_cons_of_mem p (ih h)

theorem recordSendSuccess_sent (offer : OfferDraft) (pd : PollData) (tid : String) :
    (recordSendSuccess offer pd tid).sent = mapSet pd.sent tid ETradeOfferState.Active := rfl

theorem recordSendSuccess_timestamps (offer : OfferDraft) (pd : PollData) (tid : String) :
    (recordSendSuccess offer pd tid).timestamps = pd.timestamps := rfl

theorem recordSendSuccess_received (offer : OfferDraft) (pd : PollData) (tid : String) :
    (recordSendSuccess offer pd tid).received = pd.received := rfl

/-- Claim C10 evaluated at the failing input: the offer's
itemsToReceive holds only the appid-313/contextid-2/assetid-1213 item
and removeTheirItems is called with an empty list, so by the claim
nothing may be removed; the source's extra hard-coded
removeTheirItem({appid: 313, contextid: "2", assetid: "1213"}) call
(absent from the symmetric removeMyItems) strips the item anyway. -/
theorem claim10_failing_eval :
    removeTheirItems [itemHat313] [] = [] ∧ itemHat313 ∉ ([] : List EconItem) := by
  decide

/-- Claim C1 counterexample: a send that succeeds with tradeofferid X
leaves sent[X] = Active in the store but writes no timestamps binding
for X at all, refuting that timestamps[new_id] is approximately now
before the call returns. -/
theorem claim1_counterexample :
    (sendOffer draftOneItem pdEmptyStore respOkX).toOption.map
        (fun out => (out.returned, mapGet out.pd.sent "X", mapGet out.pd.timestamps "X")) =
      some (ETradeOfferState.Active, some ETradeOfferState.Active, none) := by
  decide

/-- Claim C1 (amended): on every send that succeeds with the server
returning a tradeofferid, before the call returns the store holds
sent[new_id] = Active (plus the truthy per-offer override bindings),
while the timestamps and received maps are untouched; in particular no
timestamps entry is created for the new id. -/
theorem claim1_theorem (offer : OfferDraft) (pd : PollData) (resp : SendResponse)
    (body : SendBody) (tid : String) (out : SendOutcome)
    (hb : resp.body = some body) (ht : body.tradeofferid = some tid)
    (hok : sendOffer offer pd resp = Except.ok out) :
    mapGet out.pd.sent tid = some ETradeOfferState.Active ∧
    out.pd.timestamps = pd.timestamps ∧
    out.pd.received = pd.received ∧
    out.offer.id = some tid := by
  simp only [sendOffer, hb, ht] at hok
  repeat' split at hok
  all_goals simp only [Except.error.injEq, Except.ok.injEq, reduceCtorEq] at hok
  all_goals subst hok
  all_goals
    exact ⟨by rw [recordSendSuccess_sent]; exact mapGet_set_self _ _ _,
      recordSendSuccess_timestamps _ _ _, recordSendSuccess_received _ _ _, rfl⟩

/-- Witness for claim1_theorem at the concrete one-item draft and the
successful X response. -/
theorem claim1_witness :
    mapGet ((sendOffer draftOneItem pdEmptyStore respOkX).toOption.getD
        { returned := ETradeOfferState.Invalid, offer := draftOneItem,
          pd := pdEmptyStore }).pd.sent "X" = some ETradeOfferState.Active := by
  have h := claim1_theorem draftOneItem pdEmptyStore respOkX
    { tradeofferid := some "X", strError := none
      needs_email_confirmation := false, needs_mobile_confirmation := false }
    "X"
    ((sendOffer draftOneItem pdEmptyStore respOkX).toOption.getD
      { returned := ETradeOfferState.Invalid, offer := draftOneItem, pd := pdEmptyStore })
    rfl rfl rfl
  exact h.1

theorem resetLocalOffset_succ_ne (o : Nat) : resetLocalOffset (o + 1) ≠ o := by
  unfold resetLocalOffset
  split <;> omega

theorem be8_decode (t : Nat) :
    t / 2 ^ 56 % 256 * 2 ^ 56 + t / 2 ^ 48 % 256 * 2 ^ 48 + t / 2 ^ 40 % 256 * 2 ^ 40 +
      t / 2 ^ 32 % 256 * 2 ^ 32 + t / 2 ^ 24 % 256 * 2 ^ 24 + t / 2 ^ 16 % 256 * 2 ^ 16 +
      t / 2 ^ 8 % 256 * 2 ^ 8 + t % 256 = t % 2 ^ 64 := by
  omega

theorem be8_inj (t1 t2 : Nat) (h1 : t1 < 2 ^ 64) (h2 : t2 < 2 ^ 64)
    (h : be8 t1 = be8 t2) : t1 = t2 := by
  simp only [be8, List.cons.injEq, and_true] at h
  have d1 := be8_decode t1
  have d2 := be8_decode t2
  rw [Nat.mod_eq_of_lt h1] at d1
  rw [Nat.mod_eq_of_lt h2] at d2
  omega

theorem confKeyInput_eq (t : Nat) (tag : List Nat) :
    confKeyInput t tag = be8 t ++ tag := rfl

/-- Claim C9: two back-to-back key derivations within the same wall
second use distinct t values: the first uses the current clock offset,
the second uses the post-incremented offset, possibly already reset by
the request path (reset applies only above 500, so it never maps the
successor back onto the original).  Distinct in-range t values give the
external HMAC primitive distinct input buffers (8-byte big-endian time
plus tag), so the derived keys differ. -/
theorem claim9_theorem (nowSec offset o2 : Nat) (tag : List Nat)
    (h2 : o2 = offset + 1 ∨ o2 = resetLocalOffset (offset + 1))
    (hb1 : nowSec + offset < 2 ^ 64) (hb2 : nowSec + o2 < 2 ^ 64) :
    (deriveStep nowSec offset).1 ≠ (deriveStep nowSec o2).1 ∧
    confKeyInput (deriveStep nowSec offset).1 tag ≠
      confKeyInput (deriveStep nowSec o2).1 tag := by
  have hne : offset ≠ o2 := by
    rcases h2 with h | h
    · omega
    · rw [h]
      exact fun hc => resetLocalOffset_succ_ne offset hc.symm
  have ht : nowSec + offset ≠ nowSec + o2 := by omega
  refine ⟨ht, fun hk => ?_⟩
  rw [confKeyInput_eq, confKeyInput_eq] at hk
  exact ht (be8_inj _ _ hb1 hb2 (List.append_cancel_right hk))

/-- Witness for claim9_theorem: offset 500 straddling the reset, tag
"conf" as bytes. -/
theorem claim9_witness :
    (deriveStep 1700000000 500).1 ≠ (deriveStep 1700000000 (resetLocalOffset 501)).1 ∧
    confKeyInput (deriveStep 1700000000 500).1 [99, 111, 110, 102] ≠
      confKeyInput (deriveStep 1700000000 (resetLocalOffset 501)).1 [99, 111, 110, 102] :=
  claim9_theorem 1700000000 500 (resetLocalOffset 501) [99, 111, 110, 102]
    (Or.inr rfl) (by decide) (by decide)

theorem confStep_inv (s : ConfState) (i : Fin 2) (h : confInv s) :
    confInv (confStep s i) := by
  obtain ⟨p0, p1, latch, hits⟩ := s
  obtain ⟨hl0, hl1, hh⟩ := h
  fin_cases i <;> cases p0 <;> cases p1 <;>
    rcases latch with _ | j <;>
    simp_all [confStep, confPhase, setConfPhase, confInv, confHitsOf, Fin.ext_iff]

theorem confRun_inv (sched : List (Fin 2)) : confInv (confRun sched) := by
  have hgen : ∀ s, confInv s → confInv (sched.foldl confStep s) := by
    induction sched with
    | nil => exact fun s h => h
    | cons i rest ih => exact fun s h => ih _ (confStep_inv s i h)
  exact hgen confInit ⟨by simp [confInit], by simp [confInit], rfl⟩

/-- Claim C6 counterexample: the canonical overlapping schedule (caller
0 enters and fetches, caller 1 enters while the latch is held and
waits, caller 0 finishes, caller 1 wakes, fetches on its own, and
finishes) ends with both callers done and the confirmation endpoint
hit twice, not once. -/
theorem claim6_counterexample :
    (confRun [0, 1, 0, 1, 1]).phase0 = ConfPhase.done ∧
    (confRun [0, 1, 0, 1, 1]).phase1 = ConfPhase.done ∧
    (confRun [0, 1, 0, 1, 1]).hits = 2 ∧
    (confRun [0, 1, 0, 1, 1]).hits ≠ 1 := by
  decide

/-- Claim C6 (amended): the retrieveConfirmationsDeffer latch
serializes concurrent getConfirmations calls (the two callers are never
inside the fetch body at once), but it does not share the response: in
every schedule in which both callers complete, the confirmation
endpoint is hit exactly twice, once per caller. -/
theorem claim6_theorem (sched : List (Fin 2)) :
    (¬((confRun sched).phase0 = ConfPhase.fetching ∧
        (confRun sched).phase1 = ConfPhase.fetching)) ∧
    ((confRun sched).phase0 = ConfPhase.done →
      (confRun sched).phase1 = ConfPhase.done →
      (confRun sched).hits = 2) := by
  obtain ⟨hl0, hl1, hh⟩ := confRun_inv sched
  constructor
  · rintro ⟨h0, h1⟩
    have e0 := hl0.mpr h0
    have e1 := hl1.mpr h1
    rw [e0] at e1
    exact absurd (Option.some.inj e1) (by decide)
  · intro h0 h1
    rw [h0, h1] at hh
    simpa [confHitsOf] using hh

/-- Witness for claim6_theorem at the canonical overlapping
schedule. -/
theorem claim6_witness : (confRun [0, 1, 0, 1, 1]).hits = 2 :=
  (claim6_theorem [0, 1, 0, 1, 1]).2 (by decide) (by decide)

theorem mem_keys_of_mapGet {α : Type} (m : List (String × α)) (id : String) (v : α)
    (h : mapGet m id = some v) : id ∈ mapKeys m := by
  induction m with
  | nil => cases h
  | cons p rest ih =>
    by_cases hp : p.1 = id
    · exact hp ▸ List.mem_cons_self _ _
    · simp only [mapGet, hp, if_false] at h
      exact List.mem_cons_of_mem _ (ih h)

theorem mapGet_decomp {α : Type} (m : List (String × α)) (id : String) (v : α)
    (h : mapGet m id = some v) (hnd : (mapKeys m).Nodup) :
    ∃ l1 l2, m = l1 ++ (id, v) :: l2 ∧ (∀ e ∈ l1, e.1 ≠ id) ∧ (∀ e ∈ l2, e.1 ≠ id) := by
  induction m with
  | nil => cases h
  | cons p rest ih =>
    by_cases hp : p.1 = id
    · have hv : p.2 = v := by simpa [mapGet, hp] using h
      refine ⟨[], rest, ?_, by simp, ?_⟩
      · have : p = (id, v) := Prod.ext hp hv
        simp [this]
      · intro e he hc
        have hmem : id ∈ mapKeys rest := hc ▸ List.mem_map_of_mem (fun p => p.1) he
        have hn : p.1 ∉ mapKeys rest := (List.nodup_cons.mp hnd).1
        exact hn (hp ▸ hmem)
    · simp only [mapGet, hp, if_false] at h
      obtain ⟨l1, l2, heq, hl1, hl2⟩ := ih h (List.nodup_cons.mp hnd).2
      refine ⟨p :: l1, l2, by simp [heq], ?_, hl2⟩
      intro e he
      rcases List.mem_cons.mp he with he | he
      · exact he ▸ hp
      · exact hl1 e he

theorem pruneOfferEntry_offersSince (pd : PollData) (e : String × ETradeOfferState) :
    (pruneOfferEntry pd e).offersSince = pd.offersSince := by
  unfold pruneOfferEntry
  split
  · rfl
  · rfl

theorem pruneFold_offersSince (entries : List (String × ETradeOfferState)) (pd : PollData) :
    (entries.foldl pruneOfferEntry pd).offersSince = pd.offersSince := by
  induction entries generalizing pd with
  | nil => rfl
  | cons e rest ih => exact (ih _).trans (pruneOfferEntry_offersSince pd e)

theorem pruneOfferEntry_frame (pd : PollData) (e : String × ETradeOfferState)
    (id : String) (h : e.1 ≠ id) :
    mapGet (pruneOfferEntry pd e).sent id = mapGet pd.sent id ∧
    mapGet (pruneOfferEntry pd e).received id = mapGet pd.received id ∧
    mapGet (pruneOfferEntry pd e).timestamps id = mapGet pd.timestamps id := by
  unfold pruneOfferEntry
  split
  · exact ⟨rfl, rfl, rfl⟩
  · simp only [deleteOldProps, deleteTimeProps]
    exact ⟨mapGet_del_ne _ _ _ (Ne.symm h), mapGet_del_ne _ _ _ (Ne.symm h),
      mapGet_del_ne _ _ _ (Ne.symm h)⟩

theorem pruneFold_frame (entries : List (String × ETradeOfferState)) (pd : PollData)
    (id : String) (h : ∀ e ∈ entries, e.1 ≠ id) :
    mapGet (entries.foldl pruneOfferEntry pd).sent id = mapGet pd.sent id ∧
    mapGet (entries.foldl pruneOfferEntry pd).received id = mapGet pd.received id ∧
    mapGet (entries.foldl pruneOfferEntry pd).timestamps id = mapGet pd.timestamps id := by
  induction entries generalizing pd with
  | nil => exact ⟨rfl, rfl, rfl⟩
  | cons e rest ih =>
    have hstep := pruneOfferEntry_frame pd e id (h e (List.mem_cons_self _ _))
    have hrest := ih (pruneOfferEntry pd e) fun x hx => h x (List.mem_cons_of_mem _ hx)
    exact ⟨hrest.1.trans hstep.1, hrest.2.1.trans hstep.2.1, hrest.2.2.trans hstep.2.2⟩

theorem pruneFold_sent_subset (entries : List (String × ETradeOfferState)) (pd : PollData) :
    ∀ e ∈ (entries.foldl pruneOfferEntry pd).sent, e ∈ pd.sent := by
  induction entries generalizing pd with
  | nil => exact fun e he => he
  | cons x rest ih =>
    intro e he
    have hmid := ih (pruneOfferEntry pd x) e he
    unfold pruneOfferEntry at hmid
    split at hmid
    · exact hmid
    · simp only [deleteOldProps, deleteTimeProps] at hmid
      exact mem_of_mem_mapDel _ _ _ hmid

theorem pruneFold_sent_list (entries : List (String × ETradeOfferState)) (pd : PollData)
    (h : ∀ e ∈ entries, ∀ x ∈ pd.sent, x.1 ≠ e.1) :
    (entries.foldl pruneOfferEntry pd).sent = pd.sent := by
  induction entries generalizing pd with
  | nil => rfl
  | cons e rest ih =>
    have hstep : (pruneOfferEntry pd e).sent = pd.sent := by
      unfold pruneOfferEntry
      split
      · rfl
      · simp only [deleteOldProps, deleteTimeProps]
        exact mapDel_eq_of_not_mem _ _ fun x hx => h e (List.mem_cons_self _ _) x hx
    have := ih (pruneOfferEntry pd e)
      (fun y hy x hx => h y (List.mem_cons_of_mem _ hy) x (hstep ▸ hx))
    rw [List.foldl_cons, this, hstep]

theorem pruneOfferEntry_self (pd : PollData) (id : String) (st : ETradeOfferState) :
    (pruneKeep pd.offersSince st (mapGet pd.timestamps id) = true →
      pruneOfferEntry pd (id, st) = pd) ∧
    (pruneKeep pd.offersSince st (mapGet pd.timestamps id) = false →
      mapGet (pruneOfferEntry pd (id, st)).sent id = none ∧
      mapGet (pruneOfferEntry pd (id, st)).received id = none) := by
  constructor
  · intro hk
    unfold pruneOfferEntry
    simp [hk]
  · intro hk
    unfold pruneOfferEntry
    simp only [hk, Bool.false_eq_true, if_false, deleteOldProps, deleteTimeProps]
    exact ⟨mapGet_del_self _ _, mapGet_del_self _ _⟩

theorem pruneKeep_eq_false_iff (os : Int) (st : ETradeOfferState) (o : Option Int) :
    pruneKeep os st o = false ↔
      (isNonTerminalState st = false ∧ (o.getD 0 = 0 ∨ o.getD 0 ≤ os - 1800)) := by
  cases o with
  | none => simp [pruneKeep]
  | some v =>
    simp only [pruneKeep, Bool.or_eq_false_iff, Bool.and_eq_false_iff,
      decide_eq_false_iff_not, not_not, Option.getD_some]
    constructor
    · rintro ⟨h1, h2⟩
      exact ⟨h1, by omega⟩
    · rintro ⟨h1, h2⟩
      exact ⟨h1, by omega⟩

theorem pruneFold_at_self (l1 l2 : List (String × ETradeOfferState)) (pd : PollData)
    (id : String) (st : ETradeOfferState)
    (h1 : ∀ e ∈ l1, e.1 ≠ id) (h2 : ∀ e ∈ l2, e.1 ≠ id) :
    mapGet ((l1 ++ (id, st) :: l2).foldl pruneOfferEntry pd).sent id =
      (if pruneKeep pd.offersSince st (mapGet pd.timestamps id) then mapGet pd.sent id
        else none) ∧
    mapGet ((l1 ++ (id, st) :: l2).foldl pruneOfferEntry pd).received id =
      (if pruneKeep pd.offersSince st (mapGet pd.timestamps id) then mapGet pd.received id
        else none) := by
  rw [List.foldl_append]
  have hmid := pruneFold_frame l1 pd id h1
  have hos := pruneFold_offersSince l1 pd
  set pdm := l1.foldl pruneOfferEntry pd with hpdm
  have hcond : pruneKeep pdm.offersSince st (mapGet pdm.timestamps id) =
      pruneKeep pd.offersSince st (mapGet pd.timestamps id) := by
    rw [hos, hmid.2.2]
  show mapGet (((id, st) :: l2).foldl pruneOfferEntry pdm).sent id = _ ∧
    mapGet (((id, st) :: l2).foldl pruneOfferEntry pdm).received id = _
  have hself := pruneOfferEntry_self pdm id st
  have hrest := pruneFold_frame l2 (pruneOfferEntry pdm (id, st)) id h2
  by_cases hk : pruneKeep pd.offersSince st (mapGet pd.timestamps id) = true
  · have hkeep := hself.1 (hcond.trans hk)
    rw [hkeep] at hrest
    simp only [List.foldl_cons, hkeep, hk, if_true]
    exact ⟨hrest.1.trans hmid.1, hrest.2.1.trans hmid.2.1⟩
  · have hb : pruneKeep pd.offersSince st (mapGet pd.timestamps id) = false := by
      simpa using hk
    have hdel := hself.2 (hcond.trans hb)
    simp only [List.foldl_cons, hb, Bool.false_eq_true, if_false]
    exact ⟨hrest.1.trans hdel.1, hrest.2.1.trans hdel.2⟩

/-- Claim C5 counterexample: offersSince 2000 and a terminal record for
A with timestamp exactly offersSince - 1800 = 200.  By the claim (delete
only when strictly older), A must survive the sweep; the source's keep
test requires offersSince - 1800 < timestamp, so A is deleted. -/
theorem claim5_counterexample :
    mapGet (tryDeleteOldProps pdBoundaryA).sent "A" = none ∧
    ¬((200 : Int) < pdBoundaryA.offersSince - 1800) ∧
    mapGet pdBoundaryA.sent "A" = some ETradeOfferState.Declined ∧
    mapGet pdBoundaryA.timestamps "A" = some 200 := by
  decide

/-- Claim C5 (amended): for a store whose sent and received key sets
are duplicate-free and disjoint, the prune sweep at the end of a
successful tick removes a recorded id exactly when its recorded state
is terminal and its recorded timestamp is missing, zero, or at most
offers_since - 1800; any other recorded id keeps its binding
unchanged.  (The source keeps an entry on offersSince - 1800 <
timestamp, so equality at the boundary deletes, and a missing or zero
timestamp is falsy and also deletes.) -/
theorem claim5_theorem (pd : PollData)
    (hnds : (mapKeys pd.sent).Nodup) (hndr : (mapKeys pd.received).Nodup)
    (hdisj : ∀ k, k ∈ mapKeys pd.sent → k ∉ mapKeys pd.received) :
    (∀ id st, mapGet pd.sent id = some st →
      mapGet (tryDeleteOldProps pd).sent id =
        (if isNonTerminalState st = false ∧
            ((mapGet pd.timestamps id).getD 0 = 0 ∨
              (mapGet pd.timestamps id).getD 0 ≤ pd.offersSince - 1800)
          then none else some st)) ∧
    (∀ id st, mapGet pd.received id = some st →
      mapGet (tryDeleteOldProps pd).received id =
        (if isNonTerminalState st = false ∧
            ((mapGet pd.timestamps id).getD 0 = 0 ∨
              (mapGet pd.timestamps id).getD 0 ≤ pd.offersSince - 1800)
          then none else some st)) := by
  have hTD : tryDeleteOldProps pd =
      ((pd.received.foldl pruneOfferEntry pd).sent).foldl pruneOfferEntry
        (pd.received.foldl pruneOfferEntry pd) := rfl
  constructor
  · intro id st hget
    have hidk : id ∈ mapKeys pd.sent := mem_keys_of_mapGet _ _ _ hget
    have hidr : id ∉ mapKeys pd.received := hdisj id hidk
    have hrecv_ne : ∀ e ∈ pd.received, e.1 ≠ id := fun e he hc =>
      hidr (hc ▸ List.mem_map_of_mem (fun p => p.1) he)
    rw [hTD]
    set pd1 := pd.received.foldl pruneOfferEntry pd with hpd1
    have hframe1 := pruneFold_frame pd.received pd id hrecv_ne
    have hos1 := pruneFold_offersSince pd.received pd
    have hsentlist : pd1.sent = pd.sent := by
      apply pruneFold_sent_list
      intro e he x hx hc
      have hxk : x.1 ∈ mapKeys pd.sent := List.mem_map_of_mem (fun p => p.1) hx
      exact hdisj x.1 hxk (hc ▸ List.mem_map_of_mem (fun p => p.1) he)
    obtain ⟨l1, l2, hdec, hl1, hl2⟩ := mapGet_decomp pd.sent id st hget hnds
    have hsplit := pruneFold_at_self l1 l2 pd1 id st hl1 hl2
    rw [← hdec] at hsplit
    rw [hsentlist, hsplit.1]
    have hcond : pruneKeep pd1.offersSince st (mapGet pd1.timestamps id) =
        pruneKeep pd.offersSince st (mapGet pd.timestamps id) := by
      rw [hos1, hframe1.2.2]
    rw [hcond]
    have hbig := pruneKeep_eq_false_iff pd.offersSince st (mapGet pd.timestamps id)
    by_cases hk : pruneKeep pd.offersSince st (mapGet pd.timestamps id) = true
    · have hnb : ¬(isNonTerminalState st = false ∧
          ((mapGet pd.timestamps id).getD 0 = 0 ∨
            (mapGet pd.timestamps id).getD 0 ≤ pd.offersSince - 1800)) := by
        intro hc
        have := hbig.mpr hc
        rw [hk] at this
        cases this
      rw [if_neg hnb]
      simp only [hk, if_true]
      rw [hsentlist]
      exact hget
    · have hkf : pruneKeep pd.offersSince st (mapGet pd.timestamps id) = false := by
        simpa using hk
      rw [if_pos (hbig.mp hkf)]
      simp [hkf]
  · intro id st hget
    have hidk : id ∈ mapKeys pd.received := mem_keys_of_mapGet _ _ _ hget
    have hids : id ∉ mapKeys pd.sent := fun hc => hdisj id hc hidk
    rw [hTD]
    set pd1 := pd.received.foldl pruneOfferEntry pd with hpd1
    obtain ⟨l1, l2, hdec, hl1, hl2⟩ := mapGet_decomp pd.received id st hget hndr
    have hsplit := pruneFold_at_self l1 l2 pd id st hl1 hl2
    rw [← hdec] at hsplit
    have hframe2 : mapGet ((pd1.sent).foldl pruneOfferEntry pd1).received id =
        mapGet pd1.received id := by
      refine (pruneFold_frame pd1.sent pd1 id ?_).2.1
      intro e he hc
      have : e ∈ pd.sent := pruneFold_sent_subset pd.received pd e he
      exact hids (hc ▸ List.mem_map_of_mem (fun p => p.1) this)
    rw [hframe2, hsplit.2]
    have hbig := pruneKeep_eq_false_iff pd.offersSince st (mapGet pd.timestamps id)
    by_cases hk : pruneKeep pd.offersSince st (mapGet pd.timestamps id) = true
    · have hnb : ¬(isNonTerminalState st = false ∧
          ((mapGet pd.timestamps id).getD 0 = 0 ∨
            (mapGet pd.timestamps id).getD 0 ≤ pd.offersSince - 1800)) := by
        intro hc
        have := hbig.mpr hc
        rw [hk] at this
        cases this
      rw [if_neg hnb]
      simp only [hk, if_true]
      exact hget
    · have hkf : pruneKeep pd.offersSince st (mapGet pd.timestamps id) = false := by
        simpa using hk
      rw [if_pos (hbig.mp hkf)]
      simp [hkf]

/-- Witness for claim5_theorem: a store keeping a fresh non-terminal
entry and pruning an old terminal one. -/
theorem claim5_witness :
    mapGet (tryDeleteOldProps pdBoundaryA).sent "A" = none :=
  by
  have h := (claim5_theorem pdBoundaryA (by decide) (by decide) (by decide)).1
    "A" ETradeOfferState.Declined (by decide)
  rw [h]
  decide

theorem sentCancelActive_parts (cfg : MgrCfg) (now : Int) (ws : WalkState)
    (o : TradeOffer) (offerid : String) :
    (sentCancelActive cfg now ws o offerid).pd = ws.pd ∧
    (sentCancelActive cfg now ws o offerid).events = ws.events ∧
    (sentCancelActive cfg now ws o offerid).hasGlitchedOffer = ws.hasGlitchedOffer := by
  unfold sentCancelActive
  repeat' split
  all_goals exact ⟨rfl, rfl, rfl⟩

theorem sentCancelPending_parts (cfg : MgrCfg) (now : Int) (ws : WalkState)
    (o : TradeOffer) (offerid : String) :
    (sentCancelPending cfg now ws o offerid).pd = ws.pd ∧
    (sentCancelPending cfg now ws o offerid).events = ws.events ∧
    (sentCancelPending cfg now ws o offerid).hasGlitchedOffer = ws.hasGlitchedOffer := by
  unfold sentCancelPending
  repeat' split
  all_goals exact ⟨rfl, rfl, rfl⟩

theorem sentDiff_parts (cfg : MgrCfg) (p : Nat) (ws : WalkState)
    (o : TradeOffer) (offerid : String) :
    (sentDiff cfg p ws o offerid).pd.received = ws.pd.received ∧
    (sentDiff cfg p ws o offerid).pd.offersSince = ws.pd.offersSince ∧
    (sentDiff cfg p ws o offerid).pd.cancelTimes = ws.pd.cancelTimes ∧
    (sentDiff cfg p ws o offerid).pd.pendingCancelTimes = ws.pd.pendingCancelTimes ∧
    (sentDiff cfg p ws o offerid).intents = ws.intents := by
  unfold sentDiff
  repeat' split
  all_goals exact ⟨rfl, rfl, rfl, rfl, rfl⟩

theorem processSentOffer_parts (cfg : MgrCfg) (p : Nat) (now : Int)
    (ws : WalkState) (o : TradeOffer) :
    (processSentOffer cfg p now ws o).pd.received = ws.pd.received ∧
    (processSentOffer cfg p now ws o).pd.offersSince = ws.pd.offersSince ∧
    (processSentOffer cfg p now ws o).pd.cancelTimes = ws.pd.cancelTimes ∧
    (processSentOffer cfg p now ws o).pd.pendingCancelTimes = ws.pd.pendingCancelTimes := by
  unfold processSentOffer
  rcases o.id with _ | oid
  · exact ⟨rfl, rfl, rfl, rfl⟩
  · by_cases h : oid = ""
    · simp [h]
    · simp only [h, if_false]
      have h1 := sentDiff_parts cfg p ws o oid
      have h2 := sentCancelActive_parts cfg now (sentDiff cfg p ws o oid) o oid
      have h3 := sentCancelPending_parts cfg now
        (sentCancelActive cfg now (sentDiff cfg p ws o oid) o oid) o oid
      rw [h3.1, h2.1]
      exact ⟨h1.1, h1.2.1, h1.2.2.1, h1.2.2.2.1⟩

theorem sentFold_parts (cfg : MgrCfg) (p : Nat) (now : Int)
    (offers : List TradeOffer) (ws : WalkState) :
    ((offers.foldl (processSentOffer cfg p now) ws).pd.received = ws.pd.received) ∧
    ((offers.foldl (processSentOffer cfg p now) ws).pd.offersSince = ws.pd.offersSince) ∧
    ((offers.foldl (processSentOffer cfg p now) ws).pd.cancelTimes = ws.pd.cancelTimes) ∧
    ((offers.foldl (processSentOffer cfg p now) ws).pd.pendingCancelTimes =
      ws.pd.pendingCancelTimes) := by
  induction offers generalizing ws with
  | nil => exact ⟨rfl, rfl, rfl, rfl⟩
  | cons o rest ih =>
    have hstep := processSentOffer_parts cfg p now ws o
    have hrest := ih (processSentOffer cfg p now ws o)
    rw [List.foldl_cons]
    exact ⟨hrest.1.trans hstep.1, hrest.2.1.trans hstep.2.1,
      hrest.2.2.1.trans hstep.2.2.1, hrest.2.2.2.trans hstep.2.2.2⟩

theorem processReceivedOffer_parts (cfg : MgrCfg) (ws : WalkState) (o : TradeOffer) :
    (processReceivedOffer cfg ws o).pd.sent = ws.pd.sent ∧
    (processReceivedOffer cfg ws o).pd.offersSince = ws.pd.offersSince ∧
    (processReceivedOffer cfg ws o).pd.cancelTimes = ws.pd.cancelTimes ∧
    (processReceivedOffer cfg ws o).pd.pendingCancelTimes = ws.pd.pendingCancelTimes ∧
    (processReceivedOffer cfg ws o).intents = ws.intents := by
  unfold processReceivedOffer
  repeat' split
  all_goals exact ⟨rfl, rfl, rfl, rfl, rfl⟩

theorem receivedFold_parts (cfg : MgrCfg) (offers : List TradeOffer) (ws : WalkState) :
    ((offers.foldl (processReceivedOffer cfg) ws).pd.sent = ws.pd.sent) ∧
    ((offers.foldl (processReceivedOffer cfg) ws).pd.offersSince = ws.pd.offersSince) := by
  induction offers generalizing ws with
  | nil => exact ⟨rfl, rfl⟩
  | cons o rest ih =>
    have hstep := processReceivedOffer_parts cfg ws o
    have hrest := ih (processReceivedOffer cfg ws o)
    rw [List.foldl_cons]
    exact ⟨hrest.1.trans hstep.1, hrest.2.trans hstep.2.1⟩

theorem tryDeleteOldProps_offersSince (pd : PollData) :
    (tryDeleteOldProps pd).offersSince = pd.offersSince := by
  unfold tryDeleteOldProps
  rw [pruneFold_offersSince, pruneFold_offersSince]

theorem updateOffersSince_offersSince (pd : PollData) (resp : ApiResp) (g : Bool) :
    (updateOffersSince pd resp g).offersSince =
      (if g then pd.offersSince
        else if optTruthy resp.oldestNonTerminal ∧
            resp.oldestNonTerminal.getD 0 < resp.requestedAt
          then resp.oldestNonTerminal.getD 0
          else resp.requestedAt) := by
  unfold updateOffersSince
  split
  · simp_all
  · split <;> simp_all

theorem tickReceivedStage_offersSince (cfg : MgrCfg) (p : Nat) (now : Int)
    (pd : PollData) (resp : ApiResp) :
    (tickReceivedStage cfg p now pd resp).pd.offersSince = pd.offersSince := by
  unfold tickReceivedStage
  rw [(receivedFold_parts cfg resp.receivedOffers _).2]
  show (tickSentStage cfg p now pd resp).pd.offersSince = pd.offersSince
  unfold tickSentStage
  exact (sentFold_parts cfg p now resp.sentOffers _).2.1

theorem doPollCore_hasGlitched (cfg : MgrCfg) (p : Nat) (now : Int)
    (pd : PollData) (resp : ApiResp) :
    (doPollCore cfg p now pd resp).hasGlitchedOffer =
      (tickReceivedStage cfg p now pd resp).hasGlitchedOffer := rfl

theorem doPollCore_offersSince (cfg : MgrCfg) (p : Nat) (now : Int)
    (pd : PollData) (resp : ApiResp) :
    (doPollCore cfg p now pd resp).pd.offersSince =
      (if (doPollCore cfg p now pd resp).hasGlitchedOffer then pd.offersSince
        else if optTruthy resp.oldestNonTerminal ∧
            resp.oldestNonTerminal.getD 0 < resp.requestedAt
          then resp.oldestNonTerminal.getD 0
          else resp.requestedAt) := by
  show (tryDeleteOldProps (updateOffersSince (tickReceivedStage cfg p now pd resp).pd resp
      (tickReceivedStage cfg p now pd resp).hasGlitchedOffer)).offersSince = _
  rw [tryDeleteOldProps_offersSince, updateOffersSince_offersSince,
    tickReceivedStage_offersSince, doPollCore_hasGlitched]

/-- Claim C4 counterexample: with offersSince already at 10000, a
successful glitch-free tick whose payload contains a non-terminal
offer last updated at 5000 (and whose requestedAt is 10000) rewrites
offersSince to 5000, strictly below its previous value. -/
theorem claim4_counterexample :
    pdSince10000.offersSince = 10000 ∧
    (doPollTick cfgPlainZ 0 11800000 pdSince10000 [rawEscrowD] []).hasGlitchedOffer = false ∧
    (doPollTick cfgPlainZ 0 11800000 pdSince10000 [rawEscrowD] []).pd.offersSince = 5000 ∧
    ¬(pdSince10000.offersSince ≤
      (doPollTick cfgPlainZ 0 11800000 pdSince10000 [rawEscrowD] []).pd.offersSince) := by
  decide

/-- Claim C4 (amended): at the end of a successful tick, offersSince is
unchanged when a glitched offer was seen, and otherwise becomes the
oldest returned non-terminal update time when that is truthy and
strictly below requestedAt, else requestedAt.  It is therefore
nondecreasing only under the extra assumption that no returned
non-terminal offer is older than the previous offersSince and that
requestedAt has not fallen behind it; without that assumption it can
decrease (see the counterexample). -/
theorem claim4_theorem (cfg : MgrCfg) (p : Nat) (now : Int) (pd : PollData)
    (sentRaw receivedRaw : List RawOffer) :
    ((doPollTick cfg p now pd sentRaw receivedRaw).pd.offersSince =
      (if (doPollTick cfg p now pd sentRaw receivedRaw).hasGlitchedOffer then pd.offersSince
        else if optTruthy (getOffersCompute now sentRaw receivedRaw).oldestNonTerminal ∧
            (getOffersCompute now sentRaw receivedRaw).oldestNonTerminal.getD 0 <
              (getOffersCompute now sentRaw receivedRaw).requestedAt
          then (getOffersCompute now sentRaw receivedRaw).oldestNonTerminal.getD 0
          else (getOffersCompute now sentRaw receivedRaw).requestedAt)) ∧
    ((∀ v, (getOffersCompute now sentRaw receivedRaw).oldestNonTerminal = some v →
        pd.offersSince ≤ v) →
      pd.offersSince ≤ (getOffersCompute now sentRaw receivedRaw).requestedAt →
      pd.offersSince ≤ (doPollTick cfg p now pd sentRaw receivedRaw).pd.offersSince) := by
  have hform := doPollCore_offersSince cfg p now pd (getOffersCompute now sentRaw receivedRaw)
  refine ⟨hform, fun hold hreq => ?_⟩
  show pd.offersSince ≤
    (doPollCore cfg p now pd (getOffersCompute now sentRaw receivedRaw)).pd.offersSince
  rw [hform]
  split
  · exact le_refl _
  · split
    · rename_i hc
      rcases hx : (getOffersCompute now sentRaw receivedRaw).oldestNonTerminal with _ | v
      · rw [hx] at hc
        simp [optTruthy] at hc
      · have := hold v hx
        simpa using this
    · exact hreq

/-- Witness for claim4_theorem: the glitch-free escrow payload; the
monotonicity hypotheses hold when the previous offersSince is 0. -/
theorem claim4_witness :
    (0 : Int) ≤ (doPollTick cfgPlainZ 0 11800000 pdEmptyStore [rawEscrowD] []).pd.offersSince :=
  by
  have h := (claim4_theorem cfgPlainZ 0 11800000 pdEmptyStore [rawEscrowD] []).2
  exact h (by decide) (by decide)

/-- Claim C3 counterexample: a glitched sent offer (both item sides
empty) with no record in the store, walked with no pending sends, does
update the store: the unknown-sent branch records state and timestamp
without any glitch check, so the claim fails for unrecorded offers. -/
theorem claim3_counterexample :
    isGlitched cfgPlainZ.getDescriptions (offerFrom rawGlitchC) = true ∧
    mapGet pdEmptyStore.sent "C" = none ∧
    mapGet (doPollTick cfgPlainZ 0 1000000000000 pdEmptyStore [rawGlitchC] []).pd.sent "C" =
      some ETradeOfferState.Active ∧
    mapGet (doPollTick cfgPlainZ 0 1000000000000 pdEmptyStore
      [rawGlitchC] []).pd.timestamps "C" = some 1000000000 := by
  decide

/-- Claim C3 (amended): a glitched offer leaves the store untouched in
the two walks that test for glitches: the sent walk when the store
already has a record for the offer (where a state difference only sets
the glitch flag and posts a debug note), and the received walk always.
A glitched sent offer with no record is recorded like any unknown
offer, so the claim holds only for recorded sent offers and for
received offers. -/
theorem claim3_theorem (cfg : MgrCfg) (p : Nat) (now : Int) (ws : WalkState)
    (o : TradeOffer) (id : String) (hid : o.id = some id) (hne : id ≠ "")
    (hg : isGlitched cfg.getDescriptions o = true) :
    (∀ prev, mapGet ws.pd.sent id = some prev →
      ((processSentOffer cfg p now ws o).pd.sent = ws.pd.sent ∧
        (processSentOffer cfg p now ws o).pd.timestamps = ws.pd.timestamps ∧
        (o.state ≠ prev → (processSentOffer cfg p now ws o).hasGlitchedOffer = true))) ∧
    ((processReceivedOffer cfg ws o).pd = ws.pd ∧
      (processReceivedOffer cfg ws o).hasGlitchedOffer = true) := by
  constructor
  · intro prev hprev
    have hdiff : (sentDiff cfg p ws o id).pd = ws.pd ∧
        (o.state ≠ prev → (sentDiff cfg p ws o id).hasGlitchedOffer = true) := by
      unfold sentDiff
      rw [hprev]
      by_cases hstate : o.state = prev
      · simp [hstate]
      · simp [hstate, hg]
    have hca := sentCancelActive_parts cfg now (sentDiff cfg p ws o id) o id
    have hcp := sentCancelPending_parts cfg now
      (sentCancelActive cfg now (sentDiff cfg p ws o id) o id) o id
    have hps : processSentOffer cfg p now ws o =
        sentCancelPending cfg now
          (sentCancelActive cfg now (sentDiff cfg p ws o id) o id) o id := by
      unfold processSentOffer
      rw [hid]
      simp [hne]
    rw [hps, hcp.1, hca.1, hdiff.1]
    refine ⟨rfl, rfl, fun hsne => ?_⟩
    rw [hcp.2.2, hca.2.2]
    exact hdiff.2 hsne
  · have hpr : processReceivedOffer cfg ws o =
        { ws with hasGlitchedOffer := true } := by
      unfold processReceivedOffer
      rw [hid]
      simp [hne, hg]
    rw [hpr]
    exact ⟨rfl, rfl⟩

/-- Witness for claim3_theorem: the empty-items offer C against a
store recording C as Declined. -/
theorem claim3_witness :
    (processReceivedOffer cfgPlainZ (tickStart pdStoreA) (offerFrom rawGlitchC)).pd =
      (tickStart pdStoreA).pd ∧
    (processReceivedOffer cfgPlainZ (tickStart pdStoreA)
      (offerFrom rawGlitchC)).hasGlitchedOffer = true :=
  (claim3_theorem cfgPlainZ 0 0 (tickStart pdStoreA) (offerFrom rawGlitchC) "C"
    rfl (by decide) (by decide)).2

theorem sentDiff_no_unknown (cfg : MgrCfg) (p : Nat) (ws : WalkState)
    (o : TradeOffer) (offerid : String) (hp : p ≠ 0) (i : String)
    (h : PollEvent.unknownOfferSent i ∉ ws.events) :
    PollEvent.unknownOfferSent i ∉ (sentDiff cfg p ws o offerid).events := by
  unfold sentDiff
  repeat' split
  all_goals
    simp_all [List.mem_append, sentChangedRtEvents]

theorem processSentOffer_no_unknown (cfg : MgrCfg) (p : Nat) (now : Int)
    (ws : WalkState) (o : TradeOffer) (hp : p ≠ 0) (i : String)
    (h : PollEvent.unknownOfferSent i ∉ ws.events) :
    PollEvent.unknownOfferSent i ∉ (processSentOffer cfg p now ws o).events := by
  unfold processSentOffer
  rcases o.id with _ | oid
  · simp [List.mem_append, h]
  · by_cases he : oid = ""
    · simp [he, List.mem_append, h]
    · simp only [he, if_false]
      rw [(sentCancelPending_parts cfg now _ o oid).2.1,
        (sentCancelActive_parts cfg now _ o oid).2.1]
      exact sentDiff_no_unknown cfg p ws o oid hp i h

theorem processReceivedOffer_no_unknown (cfg : MgrCfg) (ws : WalkState)
    (o : TradeOffer) (i : String)
    (h : PollEvent.unknownOfferSent i ∉ ws.events) :
    PollEvent.unknownOfferSent i ∉ (processReceivedOffer cfg ws o).events := by
  unfold processReceivedOffer
  repeat' split
  all_goals
    simp_all [List.mem_append, receivedRtEvents, receivedChangeEvents]
  all_goals
    repeat' split
  all_goals simp_all

theorem sentFold_no_unknown (cfg : MgrCfg) (p : Nat) (now : Int)
    (offers : List TradeOffer) (ws : WalkState) (hp : p ≠ 0) (i : String)
    (h : PollEvent.unknownOfferSent i ∉ ws.events) :
    PollEvent.unknownOfferSent i ∉
      (offers.foldl (processSentOffer cfg p now) ws).events := by
  induction offers generalizing ws with
  | nil => exact h
  | cons o rest ih =>
    rw [List.foldl_cons]
    exact ih _ (processSentOffer_no_unknown cfg p now ws o hp i h)

theorem receivedFold_no_unknown (cfg : MgrCfg) (offers : List TradeOffer)
    (ws : WalkState) (i : String)
    (h : PollEvent.unknownOfferSent i ∉ ws.events) :
    PollEvent.unknownOfferSent i ∉
      (offers.foldl (processReceivedOffer cfg) ws).events := by
  induction offers generalizing ws with
  | nil => exact h
  | cons o rest ih =>
    rw [List.foldl_cons]
    exact ih _ (processReceivedOffer_no_unknown cfg ws o i h)

/-- Claim C7: while the pending-send counter is nonzero, a tick posts
no unknownOfferSent event at all, in particular none for a returned
sent offer that has no record in the store. -/
theorem claim7_theorem (cfg : MgrCfg) (p : Nat) (now : Int) (pd : PollData)
    (resp : ApiResp) (hp : p ≠ 0) (i : String) :
    PollEvent.unknownOfferSent i ∉ (doPollCore cfg p now pd resp).events := by
  show PollEvent.unknownOfferSent i ∉ (tickReceivedStage cfg p now pd resp).events
  unfold tickReceivedStage
  apply receivedFold_no_unknown
  show PollEvent.unknownOfferSent i ∉ (tickSentStage cfg p now pd resp).events
  unfold tickSentStage
  apply sentFold_no_unknown cfg p now resp.sentOffers (tickStart pd) hp
  exact List.not_mem_nil _

/-- Witness for claim7_theorem: one pending send, a payload with an
unrecorded sent offer A. -/
theorem claim7_witness :
    PollEvent.unknownOfferSent "A" ∉
      (doPollCore cfgPlainZ 1 2000000 pdEmptyStore
        (getOffersCompute 2000000 [rawActiveA] [])).events :=
  claim7_theorem cfgPlainZ 1 2000000 pdEmptyStore
    (getOffersCompute 2000000 [rawActiveA] []) (by decide) "A"

theorem mem_insertSorted {α : Type} (le : α → α → Bool) (a x : α) (l : List α) :
    x ∈ insertSorted le a l ↔ x = a ∨ x ∈ l := by
  induction l with
  | nil => simp [insertSorted]
  | cons b t ih =>
    by_cases h : le a b
    · simp [insertSorted, h]
    · simp only [insertSorted, h, Bool.false_eq_true, if_false, List.mem_cons, ih]
      tauto

theorem insertSorted_perm {α : Type} (le : α → α → Bool) (a : α) (l : List α) :
    (insertSorted le a l).Perm (a :: l) := by
  induction l with
  | nil => exact List.Perm.refl _
  | cons b t ih =>
    by_cases h : le a b
    · simp [insertSorted, h]
    · rw [insertSorted, if_neg (by simpa using h)]
      exact (ih.cons b).trans (List.Perm.swap a b t)

theorem sortBy_perm {α : Type} (le : α → α → Bool) (l : List α) :
    (sortBy le l).Perm l := by
  induction l with
  | nil => exact List.Perm.refl _
  | cons a t ih =>
    exact (insertSorted_perm le a (sortBy le t)).trans (ih.cons a)

theorem mem_sortBy {α : Type} (le : α → α → Bool) (x : α) (l : List α) :
    x ∈ sortBy le l ↔ x ∈ l :=
  (sortBy_perm le l).mem_iff

theorem insertSorted_congrOn {α : Type} (le le2 : α → α → Bool) (a : α) (l : List α)
    (h : ∀ b ∈ l, le a b = le2 a b) : insertSorted le a l = insertSorted le2 a l := by
  induction l with
  | nil => rfl
  | cons b t ih =>
    have hb := h b (List.mem_cons_self _ _)
    rw [insertSorted, insertSorted, hb]
    split
    · rfl
    · rw [ih fun c hc => h c (List.mem_cons_of_mem _ hc)]

theorem sortBy_congrOn {α : Type} (le le2 : α → α → Bool) (l : List α)
    (h : ∀ a ∈ l, ∀ b ∈ l, le a b = le2 a b) : sortBy le l = sortBy le2 l := by
  induction l with
  | nil => rfl
  | cons a t ih =>
    rw [sortBy, sortBy,
      ih fun x hx y hy =>
        h x (List.mem_cons_of_mem _ hx) y (List.mem_cons_of_mem _ hy)]
    exact insertSorted_congrOn le le2 a (sortBy le2 t) fun b hb =>
      h a (List.mem_cons_self _ _) b
        (List.mem_cons_of_mem _ ((mem_sortBy le2 b t).mp hb))

theorem pairwise_insertSorted_key {α : Type} (key : α → Int) (a : α) (l : List α)
    (h : l.Pairwise fun x y => key x ≤ key y) :
    (insertSorted (fun x y => decide (key x ≤ key y)) a l).Pairwise
      (fun x y => key x ≤ key y) := by
  induction l with
  | nil => simp [insertSorted]
  | cons b t ih =>
    rcases List.pairwise_cons.mp h with ⟨hb, ht⟩
    by_cases hc : key a ≤ key b
    · rw [insertSorted, if_pos (by simpa using hc)]
      refine List.pairwise_cons.mpr ⟨?_, h⟩
      intro x hx
      rcases List.mem_cons.mp hx with rfl | hx
      · exact hc
      · exact le_trans hc (hb x hx)
    · rw [insertSorted, if_neg (by simpa using hc)]
      refine List.pairwise_cons.mpr ⟨?_, ih ht⟩
      intro x hx
      rcases (mem_insertSorted _ a x t).mp hx with rfl | hx
      · exact le_of_not_le hc
      · exact hb x hx

theorem pairwise_sortBy_key {α : Type} (key : α → Int) (l : List α) :
    (sortBy (fun x y => decide (key x ≤ key y)) l).Pairwise
      (fun x y => key x ≤ key y) := by
  induction l with
  | nil => simp [sortBy]
  | cons a t ih => exact pairwise_insertSorted_key key a _ ih

theorem quotaLoop_eq (cfg : MgrCfg) (now : Int) (ts : List (String × Int)) :
    ∀ (n : Nat) (l : List (String × ETradeOfferState)),
      quotaLoop cfg now ts n l =
        ((l.take n).filter
          (fun e => decide (e.1 ≠ "") && !minAgeSkip cfg now ts e.1)).map
          (fun e => (e.1, CancelReason.cancelOfferCountRule)) := by
  intro n
  induction n with
  | zero => intro l; simp [quotaLoop]
  | succ m ih =>
    intro l
    cases l with
    | nil => simp [quotaLoop]
    | cons e rest =>
      by_cases h1 : e.1 = ""
      · simp [quotaLoop, h1, ih]
      · by_cases h2 : minAgeSkip cfg now ts e.1
        · simp [quotaLoop, h1, h2, ih]
        · simp [quotaLoop, h1, h2, ih]

/-- Claim C2 counterexample: cancelOfferCount = 1, the single offer A
both returned Active and recorded Active in the store.  The union has
size 1 = K, so the claim asks for exactly 0 cancellations; the source
concatenates the two listings (counting A twice), computes 2 - 1 = 1
and cancels A. -/
theorem claim2_counterexample :
    cfgQuota1.cancelOfferCount = 1 ∧
    ((sentActiveOf (getOffersCompute 10000000 [rawActiveA] []).sentOffers).map
        (fun e => e.1) ++
      (polledSentActiveOf pdStoreA).map (fun e => e.1)).dedup = ["A"] ∧
    (doPollTick cfgQuota1 0 10000000 pdStoreA [rawActiveA] []).intents =
      [("A", CancelReason.cancelOfferCountRule)] := by
  decide

/-- Claim C2 (amended): when cancelOfferCount = K is set, the quota
block forms the concatenation of the returned Active sent offers with
the store's Active sent entries, counting an offer present in both
twice.  If its length L reaches K, the entries are stably sorted by
stored timestamp and the walk covers exactly the first L - K sorted
positions, requesting a cancel for each entry there whose id is
nonempty and not under the cancelOfferCountMinAge floor; and (when
every entry carries a timestamp) every walked entry's timestamp is at
most that of every entry it spares. -/
theorem claim2_theorem (cfg : MgrCfg) (now : Int) (pd : PollData)
    (sentOffers : List TradeOffer) (hK : cfg.cancelOfferCount ≠ 0)
    (hlen : (fastConcat (sentActiveOf sentOffers) (polledSentActiveOf pd)).length ≥
      cfg.cancelOfferCount)
    (hts : ∀ e ∈ fastConcat (sentActiveOf sentOffers) (polledSentActiveOf pd),
      (mapGet pd.timestamps e.1).isSome) :
    (quotaBlock cfg now pd sentOffers =
      (((sortBy (sortLe pd.timestamps)
            (fastConcat (sentActiveOf sentOffers) (polledSentActiveOf pd))).take
          ((fastConcat (sentActiveOf sentOffers) (polledSentActiveOf pd)).length -
            cfg.cancelOfferCount)).filter
          (fun e => decide (e.1 ≠ "") && !minAgeSkip cfg now pd.timestamps e.1)).map
        (fun e => (e.1, CancelReason.cancelOfferCountRule))) ∧
    (sortBy (sortLe pd.timestamps)
        (fastConcat (sentActiveOf sentOffers) (polledSentActiveOf pd))).Perm
      (fastConcat (sentActiveOf sentOffers) (polledSentActiveOf pd)) ∧
    (∀ a ∈ (sortBy (sortLe pd.timestamps)
        (fastConcat (sentActiveOf sentOffers) (polledSentActiveOf pd))).take
          ((fastConcat (sentActiveOf sentOffers) (polledSentActiveOf pd)).length -
            cfg.cancelOfferCount),
      ∀ b ∈ (sortBy (sortLe pd.timestamps)
        (fastConcat (sentActiveOf sentOffers) (polledSentActiveOf pd))).drop
          ((fastConcat (sentActiveOf sentOffers) (polledSentActiveOf pd)).length -
            cfg.cancelOfferCount),
      tsVal pd.timestamps a ≤ tsVal pd.timestamps b) := by
  refine ⟨?_, sortBy_perm _ _, ?_⟩
  · unfold quotaBlock
    rw [if_pos hK, if_pos hlen]
    exact quotaLoop_eq cfg now pd.timestamps _ _
  · have hagree : ∀ a ∈ fastConcat (sentActiveOf sentOffers) (polledSentActiveOf pd),
        ∀ b ∈ fastConcat (sentActiveOf sentOffers) (polledSentActiveOf pd),
        sortLe pd.timestamps a b =
          decide (tsVal pd.timestamps a ≤ tsVal pd.timestamps b) := by
      intro a ha b hb
      rcases Option.isSome_iff_exists.mp (hts a ha) with ⟨x, hx⟩
      rcases Option.isSome_iff_exists.mp (hts b hb) with ⟨y, hy⟩
      unfold sortLe tsVal
      rw [hx, hy]
      simp
    rw [sortBy_congrOn _ _ _ hagree]
    have hpw := pairwise_sortBy_key (tsVal pd.timestamps)
      (fastConcat (sentActiveOf sentOffers) (polledSentActiveOf pd))
    set sorted := sortBy
      (fun x y => decide (tsVal pd.timestamps x ≤ tsVal pd.timestamps y))
      (fastConcat (sentActiveOf sentOffers) (polledSentActiveOf pd)) with hsorted
    have hsplit := List.take_append_drop
      ((fastConcat (sentActiveOf sentOffers) (polledSentActiveOf pd)).length -
        cfg.cancelOfferCount) sorted
    rw [← hsplit] at hpw
    exact (List.pairwise_append.mp hpw).2.2

/-- Witness for claim2_theorem: the duplicate-counting scenario of the
counterexample satisfies all three hypotheses. -/
theorem claim2_witness :
    quotaBlock cfgQuota1 10000000 pdStoreA
        (getOffersCompute 10000000 [rawActiveA] []).sentOffers =
      (((sortBy (sortLe pdStoreA.timestamps)
            (fastConcat
              (sentActiveOf (getOffersCompute 10000000 [rawActiveA] []).sentOffers)
              (polledSentActiveOf pdStoreA))).take
          ((fastConcat
              (sentActiveOf (getOffersCompute 10000000 [rawActiveA] []).sentOffers)
              (polledSentActiveOf pdStoreA)).length -
            cfgQuota1.cancelOfferCount)).filter
          (fun e => decide (e.1 ≠ "") &&
            !minAgeSkip cfgQuota1 10000000 pdStoreA.timestamps e.1)).map
        (fun e => (e.1, CancelReason.cancelOfferCountRule)) :=
  (claim2_theorem cfgQuota1 10000000 pdStoreA
    (getOffersCompute 10000000 [rawActiveA] []).sentOffers
    (by decide) (by decide) (by decide)).1

theorem sentDiff_frame (cfg : MgrCfg) (p : Nat) (ws : WalkState)
    (o : TradeOffer) (oid i : String) (h : oid ≠ i) :
    mapGet (sentDiff cfg p ws o oid).pd.sent i = mapGet ws.pd.sent i ∧
    mapGet (sentDiff cfg p ws o oid).pd.timestamps i = mapGet ws.pd.timestamps i := by
  unfold sentDiff
  repeat' split
  all_goals
    first
    | exact ⟨rfl, rfl⟩
    | exact ⟨mapGet_set_ne _ _ _ _ (Ne.symm h), mapGet_set_ne _ _ _ _ (Ne.symm h)⟩

theorem processSentOffer_frame (cfg : MgrCfg) (p : Nat) (now : Int)
    (ws : WalkState) (o : TradeOffer) (i : String)
    (h : ∀ j, o.id = some j → j = "" ∨ j ≠ i) :
    mapGet (processSentOffer cfg p now ws o).pd.sent i = mapGet ws.pd.sent i := by
  unfold processSentOffer
  rcases ho : o.id with _ | oid
  · rfl
  · by_cases he : oid = ""
    · simp [he]
    · simp only [he, if_false]
      rw [(sentCancelPending_parts cfg now _ o oid).1,
        (sentCancelActive_parts cfg now _ o oid).1]
      rcases h oid ho with h1 | h1
      · exact absurd h1 he
      · exact (sentDiff_frame cfg p ws o oid i h1).1

theorem processSentOffer_self (cfg : MgrCfg) (p : Nat) (now : Int)
    (ws : WalkState) (o : TradeOffer) (i : String)
    (hid : o.id = some i) (hne : i ≠ "") :
    mapGet (processSentOffer cfg p now ws o).pd.sent i = none ∨
    mapGet (processSentOffer cfg p now ws o).pd.sent i = some o.state ∨
    isGlitched cfg.getDescriptions o = true := by
  have hps : processSentOffer cfg p now ws o =
      sentCancelPending cfg now
        (sentCancelActive cfg now (sentDiff cfg p ws o i) o i) o i := by
    unfold processSentOffer
    rw [hid]
    simp [hne]
  rw [hps, (sentCancelPending_parts cfg now _ o i).1,
    (sentCancelActive_parts cfg now _ o i).1]
  unfold sentDiff
  rcases hm : mapGet ws.pd.sent i with _ | prev
  · by_cases hp : p = 0
    · simp only [hp, if_pos]
      right
      left
      exact mapGet_set_self _ _ _
    · simp only [hp, if_false]
      exact Or.inl hm
  · simp only []
    by_cases hst : o.state ≠ prev
    · by_cases hgl : isGlitched cfg.getDescriptions o
      · exact Or.inr (Or.inr hgl)
      · right
        left
        have hgf : isGlitched cfg.getDescriptions o = false := by simpa using hgl
        rw [if_pos hst, hgf]
        simp only [Bool.not_false, if_true]
        exact mapGet_set_self _ _ _
    · right
      left
      rw [if_neg hst, hm]
      simp only [not_not] at hst
      rw [hst]

theorem sentFold_frame (cfg : MgrCfg) (p : Nat) (now : Int)
    (offers : List TradeOffer) (ws : WalkState) (i : String)
    (h : ∀ o ∈ offers, ∀ j, o.id = some j → j = "" ∨ j ≠ i) :
    mapGet ((offers.foldl (processSentOffer cfg p now) ws)).pd.sent i =
      mapGet ws.pd.sent i := by
  induction offers generalizing ws with
  | nil => rfl
  | cons x rest ih =>
    rw [List.foldl_cons]
    exact (ih _ fun o hm => h o (List.mem_cons_of_mem _ hm)).trans
      (processSentOffer_frame cfg p now ws x i (h x (List.mem_cons_self _ _)))

theorem sentFold_post (cfg : MgrCfg) (p : Nat) (now : Int)
    (offers : List TradeOffer) (ws : WalkState) (o : TradeOffer) (i : String)
    (hnd : (offers.map TradeOffer.id).Nodup)
    (ho : o ∈ offers) (hid : o.id = some i) (hne : i ≠ "") :
    mapGet ((offers.foldl (processSentOffer cfg p now) ws)).pd.sent i = none ∨
    mapGet ((offers.foldl (processSentOffer cfg p now) ws)).pd.sent i = some o.state ∨
    isGlitched cfg.getDescriptions o = true := by
  induction offers generalizing ws with
  | nil => cases ho
  | cons x rest ih =>
    rcases List.mem_cons.mp ho with rfl | ho
    · have hstep := processSentOffer_self cfg p now ws o i hid hne
      have hrest : ∀ x ∈ rest, ∀ j, x.id = some j → j = "" ∨ j ≠ i := by
        intro x hx j hj
        right
        intro hji
        have hxne : x.id ≠ o.id := by
          intro hc
          have hni : o.id ∉ rest.map TradeOffer.id :=
            (List.nodup_cons.mp hnd).1
          exact hni (hc ▸ List.mem_map_of_mem TradeOffer.id hx)
        rw [hj, hji, hid] at hxne
        exact hxne rfl
      rw [List.foldl_cons]
      rw [sentFold_frame cfg p now rest _ i hrest]
      exact hstep
    · rw [List.foldl_cons]
      exact ih _ (List.nodup_cons.mp hnd).2 ho

theorem processReceivedOffer_frame (cfg : MgrCfg) (ws : WalkState)
    (o : TradeOffer) (i : String)
    (h : ∀ j, o.id = some j → j = "" ∨ j ≠ i) :
    mapGet (processReceivedOffer cfg ws o).pd.received i = mapGet ws.pd.received i := by
  unfold processReceivedOffer
  rcases ho : o.id with _ | oid
  · rfl
  · by_cases he : oid = ""
    · simp [he]
    · rcases h oid ho with h1 | h1
      · exact absurd h1 he
      · simp only [he, if_false]
        split
        · rfl
        · exact mapGet_set_ne _ _ _ _ (Ne.symm h1)

theorem processReceivedOffer_self (cfg : MgrCfg) (ws : WalkState)
    (o : TradeOffer) (i : String) (hid : o.id = some i) (hne : i ≠ "") :
    mapGet (processReceivedOffer cfg ws o).pd.received i = some o.state ∨
    isGlitched cfg.getDescriptions o = true := by
  unfold processReceivedOffer
  rw [hid]
  simp only [hne, if_false]
  by_cases hgl : isGlitched cfg.getDescriptions o
  · exact Or.inr hgl
  · left
    rw [if_neg hgl]
    exact mapGet_set_self _ _ _

theorem receivedFold_frame (cfg : MgrCfg) (offers : List TradeOffer)
    (ws : WalkState) (i : String)
    (h : ∀ o ∈ offers, ∀ j, o.id = some j → j = "" ∨ j ≠ i) :
    mapGet ((offers.foldl (processReceivedOffer cfg) ws)).pd.received i =
      mapGet ws.pd.received i := by
  induction offers generalizing ws with
  | nil => rfl
  | cons x rest ih =>
    rw [List.foldl_cons]
    exact (ih _ fun o hm => h o (List.mem_cons_of_mem _ hm)).trans
      (processReceivedOffer_frame cfg ws x i (h x (List.mem_cons_self _ _)))

theorem receivedFold_post (cfg : MgrCfg) (offers : List TradeOffer)
    (ws : WalkState) (o : TradeOffer) (i : String)
    (hnd : (offers.map TradeOffer.id).Nodup)
    (ho : o ∈ offers) (hid : o.id = some i) (hne : i ≠ "") :
    mapGet ((offers.foldl (processReceivedOffer cfg) ws)).pd.received i = some o.state ∨
    isGlitched cfg.getDescriptions o = true := by
  induction offers generalizing ws with
  | nil => cases ho
  | cons x rest ih =>
    rcases List.mem_cons.mp ho with rfl | ho
    · have hstep := processReceivedOffer_self cfg ws o i hid hne
      have hrest : ∀ x ∈ rest, ∀ j, x.id = some j → j = "" ∨ j ≠ i := by
        intro x hx j hj
        right
        intro hji
        have hxne : x.id ≠ o.id := by
          intro hc
          have hni : o.id ∉ rest.map TradeOffer.id :=
            (List.nodup_cons.mp hnd).1
          exact hni (hc ▸ List.mem_map_of_mem TradeOffer.id hx)
        rw [hj, hji, hid] at hxne
        exact hxne rfl
      rw [List.foldl_cons]
      rcases hstep with hv | hgl
      · exact Or.inl ((receivedFold_frame cfg rest _ i hrest).trans hv)
      · exact Or.inr hgl
    · rw [List.foldl_cons]
      exact ih _ (List.nodup_cons.mp hnd).2 ho

theorem updateOffersSince_maps (pd : PollData) (resp : ApiResp) (g : Bool) :
    (updateOffersSince pd resp g).sent = pd.sent ∧
    (updateOffersSince pd resp g).received = pd.received := by
  unfold updateOffersSince
  repeat' split
  all_goals exact ⟨rfl, rfl⟩

theorem pruneOfferEntry_get_or_none (pd : PollData) (e : String × ETradeOfferState)
    (i : String) :
    (mapGet (pruneOfferEntry pd e).sent i = mapGet pd.sent i ∨
      mapGet (pruneOfferEntry pd e).sent i = none) ∧
    (mapGet (pruneOfferEntry pd e).received i = mapGet pd.received i ∨
      mapGet (pruneOfferEntry pd e).received i = none) := by
  unfold pruneOfferEntry
  split
  · exact ⟨Or.inl rfl, Or.inl rfl⟩
  · simp only [deleteOldProps, deleteTimeProps]
    by_cases h : e.1 = i
    · rw [h]
      exact ⟨Or.inr (mapGet_del_self _ _), Or.inr (mapGet_del_self _ _)⟩
    · exact ⟨Or.inl (mapGet_del_ne _ _ _ (Ne.symm h)),
        Or.inl (mapGet_del_ne _ _ _ (Ne.symm h))⟩

theorem pruneFold_get_or_none (entries : List (String × ETradeOfferState))
    (pd : PollData) (i : String) :
    (mapGet ((entries.foldl pruneOfferEntry pd)).sent i = mapGet pd.sent i ∨
      mapGet ((entries.foldl pruneOfferEntry pd)).sent i = none) ∧
    (mapGet ((entries.foldl pruneOfferEntry pd)).received i = mapGet pd.received i ∨
      mapGet ((entries.foldl pruneOfferEntry pd)).received i = none) := by
  induction entries generalizing pd with
  | nil => exact ⟨Or.inl rfl, Or.inl rfl⟩
  | cons e rest ih =>
    rw [List.foldl_cons]
    have hstep := pruneOfferEntry_get_or_none pd e i
    have hrest := ih (pruneOfferEntry pd e)
    constructor
    · rcases hrest.1 with h | h
      · rcases hstep.1 with h2 | h2
        · exact Or.inl (h.trans h2)
        · exact Or.inr (h.trans h2)
      · exact Or.inr h
    · rcases hrest.2 with h | h
      · rcases hstep.2 with h2 | h2
        · exact Or.inl (h.trans h2)
        · exact Or.inr (h.trans h2)
      · exact Or.inr h

theorem tryDeleteOldProps_get_or_none (pd : PollData) (i : String) :
    (mapGet (tryDeleteOldProps pd).sent i = mapGet pd.sent i ∨
      mapGet (tryDeleteOldProps pd).sent i = none) ∧
    (mapGet (tryDeleteOldProps pd).received i = mapGet pd.received i ∨
      mapGet (tryDeleteOldProps pd).received i = none) := by
  have hTD : tryDeleteOldProps pd =
      ((pd.received.foldl pruneOfferEntry pd).sent).foldl pruneOfferEntry
        (pd.received.foldl pruneOfferEntry pd) := rfl
  rw [hTD]
  have h1 := pruneFold_get_or_none pd.received pd i
  have h2 := pruneFold_get_or_none (pd.received.foldl pruneOfferEntry pd).sent
    (pd.received.foldl pruneOfferEntry pd) i
  constructor
  · rcases h2.1 with h | h
    · rcases h1.1 with h3 | h3
      · exact Or.inl (h.trans h3)
      · exact Or.inr (h.trans h3)
    · exact Or.inr h
  · rcases h2.2 with h | h
    · rcases h1.2 with h3 | h3
      · exact Or.inl (h.trans h3)
      · exact Or.inr (h.trans h3)
    · exact Or.inr h

theorem sentUnknownRtEvents_no_chg (o : TradeOffer) (offerid : String) :
    ∀ e ∈ sentUnknownRtEvents o offerid, isChangeEvent e = false := by
  unfold sentUnknownRtEvents
  repeat' split
  all_goals simp [isChangeEvent]

theorem receivedRtEvents_no_chg (prior : Option ETradeOfferState) (o : TradeOffer)
    (offerid : String) :
    ∀ e ∈ receivedRtEvents prior o offerid, isChangeEvent e = false := by
  unfold receivedRtEvents
  repeat' split
  all_goals simp [isChangeEvent]

theorem sentDiff_no_chg (cfg : MgrCfg) (p : Nat) (ws : WalkState)
    (o : TradeOffer) (oid : String)
    (hcond : mapGet ws.pd.sent oid = none ∨ mapGet ws.pd.sent oid = some o.state ∨
      isGlitched cfg.getDescriptions o = true)
    (h : ∀ e ∈ ws.events, isChangeEvent e = false) :
    ∀ e ∈ (sentDiff cfg p ws o oid).events, isChangeEvent e = false := by
  unfold sentDiff
  rcases hm : mapGet ws.pd.sent oid with _ | prev
  · simp only []
    split
    · intro e he
      rcases List.mem_append.mp he with he1 | he1
      · rcases List.mem_append.mp he1 with he2 | he2
        · exact h e he2
        · exact sentUnknownRtEvents_no_chg o oid e he2
      · rw [List.mem_singleton.mp he1]
        rfl
    · exact h
  · simp only []
    rw [hm] at hcond
    by_cases hst : o.state ≠ prev
    · have hgl : isGlitched cfg.getDescriptions o = true := by
        rcases hcond with hc | hc | hc
        · cases hc
        · exact absurd (Option.some.inj hc).symm hst
        · exact hc
      rw [if_pos hst, hgl]
      simp only [Bool.not_true, Bool.false_eq_true, if_false]
      intro e he
      rcases List.mem_append.mp he with he1 | he1
      · exact h e he1
      · rw [List.mem_singleton.mp he1]
        rfl
    · rw [if_neg hst]
      exact h

theorem processSentOffer_no_chg (cfg : MgrCfg) (p : Nat) (now : Int)
    (ws : WalkState) (o : TradeOffer)
    (hcond : ∀ i, o.id = some i → i ≠ "" →
      (mapGet ws.pd.sent i = none ∨ mapGet ws.pd.sent i = some o.state ∨
        isGlitched cfg.getDescriptions o = true))
    (h : ∀ e ∈ ws.events, isChangeEvent e = false) :
    ∀ e ∈ (processSentOffer cfg p now ws o).events, isChangeEvent e = false := by
  unfold processSentOffer
  rcases ho : o.id with _ | oid
  · intro e he
    rcases List.mem_append.mp he with he1 | he1
    · exact h e he1
    · rw [List.mem_singleton.mp he1]
      rfl
  · by_cases he1 : oid = ""
    · simp only [he1, if_pos]
      intro e he
      rcases List.mem_append.mp he with he2 | he2
      · exact h e he2
      · rw [List.mem_singleton.mp he2]
        rfl
    · simp only [he1, if_false]
      rw [(sentCancelPending_parts cfg now _ o oid).2.1,
        (sentCancelActive_parts cfg now _ o oid).2.1]
      exact sentDiff_no_chg cfg p ws o oid (hcond oid ho he1) h

theorem processReceivedOffer_no_chg (cfg : MgrCfg) (ws : WalkState) (o : TradeOffer)
    (hcond : ∀ i, o.id = some i → i ≠ "" →
      (mapGet ws.pd.received i = none ∨ mapGet ws.pd.received i = some o.state ∨
        isGlitched cfg.getDescriptions o = true))
    (h : ∀ e ∈ ws.events, isChangeEvent e = false) :
    ∀ e ∈ (processReceivedOffer cfg ws o).events, isChangeEvent e = false := by
  unfold processReceivedOffer
  rcases ho : o.id with _ | oid
  · intro e he
    rcases List.mem_append.mp he with he1 | he1
    · exact h e he1
    · rw [List.mem_singleton.mp he1]
      rfl
  · by_cases he1 : oid = ""
    · simp only [he1, if_pos]
      intro e he
      rcases List.mem_append.mp he with he2 | he2
      · exact h e he2
      · rw [List.mem_singleton.mp he2]
        rfl
    · simp only [he1, if_false]
      by_cases hgl : isGlitched cfg.getDescriptions o
      · rw [if_pos hgl]
        exact h
      · rw [if_neg hgl]
        intro e he
        rcases List.mem_append.mp he with he2 | he2
        · rcases List.mem_append.mp he2 with he3 | he3
          · exact h e he3
          · exact receivedRtEvents_no_chg _ o oid e he3
        · rcases hcond oid ho he1 with hc | hc | hc
          · rw [hc] at he2
            unfold receivedChangeEvents at he2
            split at he2
            · split at he2
              · rw [List.mem_singleton.mp he2]
                rfl
              · cases he2
            · rename_i heq
              exact Option.noConfusion heq
          · rw [hc] at he2
            unfold receivedChangeEvents at he2
            simp at he2
          · exact absurd hc hgl

theorem id_ne_of_nodup (x o : TradeOffer) (rest : List TradeOffer)
    (hnd : ((x :: rest).map TradeOffer.id).Nodup) (hmem : o ∈ rest)
    (i : String) (hoid : o.id = some i) : ∀ j, x.id = some j → j = "" ∨ j ≠ i := by
  intro j hj
  right
  intro hji
  have hni : x.id ∉ rest.map TradeOffer.id := (List.nodup_cons.mp hnd).1
  refine hni ?_
  rw [hj, hji, ← hoid]
  exact List.mem_map_of_mem TradeOffer.id hmem

theorem sentFold_no_chg (cfg : MgrCfg) (p : Nat) (now : Int)
    (offers : List TradeOffer) (ws : WalkState)
    (hnd : (offers.map TradeOffer.id).Nodup)
    (hcond : ∀ o ∈ offers, ∀ i, o.id = some i → i ≠ "" →
      (mapGet ws.pd.sent i = none ∨ mapGet ws.pd.sent i = some o.state ∨
        isGlitched cfg.getDescriptions o = true))
    (h : ∀ e ∈ ws.events, isChangeEvent e = false) :
    ∀ e ∈ ((offers.foldl (processSentOffer cfg p now) ws)).events,
      isChangeEvent e = false := by
  induction offers generalizing ws with
  | nil => exact h
  | cons x rest ih =>
    rw [List.foldl_cons]
    refine ih _ (List.nodup_cons.mp hnd).2 ?_ ?_
    · intro o hmem i hoid hine
      rw [processSentOffer_frame cfg p now ws x i (id_ne_of_nodup x o rest hnd hmem i hoid)]
      exact hcond o (List.mem_cons_of_mem _ hmem) i hoid hine
    · exact processSentOffer_no_chg cfg p now ws x
        (fun i hi hne => hcond x (List.mem_cons_self _ _) i hi hne) h

theorem receivedFold_no_chg (cfg : MgrCfg) (offers : List TradeOffer) (ws : WalkState)
    (hnd : (offers.map TradeOffer.id).Nodup)
    (hcond : ∀ o ∈ offers, ∀ i, o.id = some i → i ≠ "" →
      (mapGet ws.pd.received i = none ∨ mapGet ws.pd.received i = some o.state ∨
        isGlitched cfg.getDescriptions o = true))
    (h : ∀ e ∈ ws.events, isChangeEvent e = false) :
    ∀ e ∈ ((offers.foldl (processReceivedOffer cfg) ws)).events,
      isChangeEvent e = false := by
  induction offers generalizing ws with
  | nil => exact h
  | cons x rest ih =>
    rw [List.foldl_cons]
    refine ih _ (List.nodup_cons.mp hnd).2 ?_ ?_
    · intro o hmem i hoid hine
      rw [processReceivedOffer_frame cfg ws x i (id_ne_of_nodup x o rest hnd hmem i hoid)]
      exact hcond o (List.mem_cons_of_mem _ hmem) i hoid hine
    · exact processReceivedOffer_no_chg cfg ws x
        (fun i hi hne => hcond x (List.mem_cons_self _ _) i hi hne) h

theorem mapOfferFrom_id_nodup (raws : List RawOffer)
    (h : (raws.map RawOffer.tradeofferid).Nodup) :
    ((raws.map offerFrom).map TradeOffer.id).Nodup := by
  rw [List.map_map]
  have heq : (raws.map (TradeOffer.id ∘ offerFrom)) =
      (raws.map RawOffer.tradeofferid).map some := by
    rw [List.map_map]
    rfl
  rw [heq]
  exact h.map (Option.some_injective String)

/-- Claim C8: when the remote payload (with each offer id listed once per
side, as a genuine remote response has it) is identical across two
consecutive successful ticks, the second tick posts no sentOfferChanged
and no receivedOfferChanged event: the first tick leaves every walked
offer either unrecorded, recorded at its payload state, or glitched, and
none of those cases emits a change event on the repeat walk. -/
theorem claim8_theorem (cfg : MgrCfg) (p1 p2 : Nat) (now1 now2 : Int) (pd : PollData)
    (sentRaw receivedRaw : List RawOffer)
    (hs : (sentRaw.map RawOffer.tradeofferid).Nodup)
    (hr : (receivedRaw.map RawOffer.tradeofferid).Nodup) :
    ∀ e ∈ (doPollTick cfg p2 now2
        (doPollTick cfg p1 now1 pd sentRaw receivedRaw).pd sentRaw receivedRaw).events,
      isChangeEvent e = false := by
  have hsnod := mapOfferFrom_id_nodup sentRaw hs
  have hrnod := mapOfferFrom_id_nodup receivedRaw hr
  set pd1 := (doPollTick cfg p1 now1 pd sentRaw receivedRaw).pd with hpd1
  have hsent_cond : ∀ o ∈ sentRaw.map offerFrom, ∀ i, o.id = some i → i ≠ "" →
      (mapGet pd1.sent i = none ∨ mapGet pd1.sent i = some o.state ∨
        isGlitched cfg.getDescriptions o = true) := by
    intro o hmem i hoid hine
    have hstage : mapGet (tickReceivedStage cfg p1 now1 pd
        (getOffersCompute now1 sentRaw receivedRaw)).pd.sent i = none ∨
        mapGet (tickReceivedStage cfg p1 now1 pd
          (getOffersCompute now1 sentRaw receivedRaw)).pd.sent i = some o.state ∨
        isGlitched cfg.getDescriptions o = true := by
      have hlist : (tickReceivedStage cfg p1 now1 pd
          (getOffersCompute now1 sentRaw receivedRaw)).pd.sent =
          (tickQuotaStage cfg p1 now1 pd
            (getOffersCompute now1 sentRaw receivedRaw)).pd.sent :=
        (receivedFold_parts cfg _ _).1
      rw [hlist]
      exact sentFold_post cfg p1 now1 (sentRaw.map offerFrom) (tickStart pd) o i
        hsnod hmem hoid hine
    have hup := updateOffersSince_maps (tickReceivedStage cfg p1 now1 pd
        (getOffersCompute now1 sentRaw receivedRaw)).pd
      (getOffersCompute now1 sentRaw receivedRaw)
      (tickReceivedStage cfg p1 now1 pd
        (getOffersCompute now1 sentRaw receivedRaw)).hasGlitchedOffer
    have hprune := (tryDeleteOldProps_get_or_none
      (updateOffersSince (tickReceivedStage cfg p1 now1 pd
          (getOffersCompute now1 sentRaw receivedRaw)).pd
        (getOffersCompute now1 sentRaw receivedRaw)
        (tickReceivedStage cfg p1 now1 pd
          (getOffersCompute now1 sentRaw receivedRaw)).hasGlitchedOffer) i).1
    have hfin : mapGet pd1.sent i =
        mapGet (tickReceivedStage cfg p1 now1 pd
          (getOffersCompute now1 sentRaw receivedRaw)).pd.sent i ∨
        mapGet pd1.sent i = none := by
      rcases hprune with hv | hv
      · exact Or.inl (hv.trans (congrArg (fun m => mapGet m i) hup.1))
      · exact Or.inr hv
    rcases hfin with hv | hv
    · rw [hv]
      exact hstage
    · exact Or.inl hv
  have hrecv_cond : ∀ o ∈ receivedRaw.map offerFrom, ∀ i, o.id = some i → i ≠ "" →
      (mapGet pd1.received i = none ∨ mapGet pd1.received i = some o.state ∨
        isGlitched cfg.getDescriptions o = true) := by
    intro o hmem i hoid hine
    have hstage := receivedFold_post cfg (receivedRaw.map offerFrom)
      (tickQuotaStage cfg p1 now1 pd (getOffersCompute now1 sentRaw receivedRaw)) o i
      hrnod hmem hoid hine
    have hup := updateOffersSince_maps (tickReceivedStage cfg p1 now1 pd
        (getOffersCompute now1 sentRaw receivedRaw)).pd
      (getOffersCompute now1 sentRaw receivedRaw)
      (tickReceivedStage cfg p1 now1 pd
        (getOffersCompute now1 sentRaw receivedRaw)).hasGlitchedOffer
    have hprune := (tryDeleteOldProps_get_or_none
      (updateOffersSince (tickReceivedStage cfg p1 now1 pd
          (getOffersCompute now1 sentRaw receivedRaw)).pd
        (getOffersCompute now1 sentRaw receivedRaw)
        (tickReceivedStage cfg p1 now1 pd
          (getOffersCompute now1 sentRaw receivedRaw)).hasGlitchedOffer) i).2
    have hfin : mapGet pd1.received i =
        mapGet (tickReceivedStage cfg p1 now1 pd
          (getOffersCompute now1 sentRaw receivedRaw)).pd.received i ∨
        mapGet pd1.received i = none := by
      rcases hprune with hv | hv
      · exact Or.inl (hv.trans (congrArg (fun m => mapGet m i) hup.2))
      · exact Or.inr hv
    rcases hfin with hv | hv
    · rw [hv]
      rcases hstage with hx | hx
      · exact Or.inr (Or.inl hx)
      · exact Or.inr (Or.inr hx)
    · exact Or.inl hv
  intro e he
  have he2 : e ∈ (tickReceivedStage cfg p2 now2 pd1
      (getOffersCompute now2 sentRaw receivedRaw)).events := he
  refine receivedFold_no_chg cfg (receivedRaw.map offerFrom)
    (tickQuotaStage cfg p2 now2 pd1 (getOffersCompute now2 sentRaw receivedRaw))
    hrnod ?_ ?_ e he2
  · intro o hmem i hoid hine
    have hlist : (tickQuotaStage cfg p2 now2 pd1
        (getOffersCompute now2 sentRaw receivedRaw)).pd.received = pd1.received :=
      (sentFold_parts cfg p2 now2 _ (tickStart pd1)).1
    rw [hlist]
    exact hrecv_cond o hmem i hoid hine
  · show ∀ e ∈ (tickSentStage cfg p2 now2 pd1
        (getOffersCompute now2 sentRaw receivedRaw)).events, isChangeEvent e = false
    exact sentFold_no_chg cfg p2 now2 (sentRaw.map offerFrom) (tickStart pd1)
      hsnod hsent_cond (fun e he3 => absurd he3 (List.not_mem_nil e))

/-- Witness for claim8_theorem: offer A moves from Active to Accepted in
the first tick, and the repeated payload stays silent in the second. -/
theorem claim8_witness :
    ((doPollTick cfgPlainZ 0 3600000
        (doPollTick cfgPlainZ 0 3500000 pdStoreA [rawAcceptedA] []).pd
        [rawAcceptedA] []).events).all (fun e => !isChangeEvent e) = true := by
  have h := claim8_theorem cfgPlainZ 0 0 3500000 3600000 pdStoreA [rawAcceptedA] []
    (by decide) (by decide)
  refine List.all_eq_true.mpr fun e he => ?_
  rw [Bool.not_eq_true']
  exact h e he

end ST
